import Mathlib

/-!
# ComToAir: serial-to-WiFi bridge (src/src/main.cpp)

A shallow embedding of the ingestion / exposure pipeline of `main.cpp`:
the reader task `uart_read_task`, the shared globals `uart_buffer` and
`uart_total_received`, and the HTTP accessors `api_data_get_handler` and
`api_uart_status_handler`.

Conventions.
* A byte is a `Nat` (a value below 256 in every well-formed input); a C array is a
  `List Nat` whose length is the declared size; `a[i] = v` is `List.set`.
* A C string stored in an array is the run of bytes before the first zero byte.
* `size_t` is the 32-bit unsigned type of the ESP32-C6 target named in the header
  comment of `main.cpp`; arithmetic on it is taken modulo `2 ^ 32`.
* Uninitialised stack arrays (`safe_data`, `escaped_data`) are parameters holding
  arbitrary earlier content.
-/

namespace ComToAir

/-! ## Constants of `main.cpp` -/

/-- The macro `UART_BUF_SIZE` (line 35). -/
def UART_BUF_SIZE : Nat := 1024

/-- The macro `BUF_SIZE` (line 36). -/
def BUF_SIZE : Nat := UART_BUF_SIZE

/-- The ESP-IDF enumerator `GPIO_NUM_0`, whose value is 0. -/
def GPIO_NUM_0 : Nat := 0

/-- The ESP-IDF enumerator `GPIO_NUM_1`, whose value is 1. -/
def GPIO_NUM_1 : Nat := 1

/-- The macro `UART_TX_PIN` (line 33). -/
def UART_TX_PIN : Nat := GPIO_NUM_0

/-- The macro `UART_RX_PIN` (line 34). -/
def UART_RX_PIN : Nat := GPIO_NUM_1

/-- Number of values of the target's `size_t` (32-bit RISC-V). -/
def SIZE_T_MOD : Nat := 2 ^ 32

/-! ## C library helpers -/

/-- The C string held in an array: the bytes before the first zero byte. -/
def cstr (a : List Nat) : List Nat := a.takeWhile (fun b => b != 0)

/-- The libc `strlen`: the number of bytes before the first zero byte. -/
def strlen (a : List Nat) : Nat := (cstr a).length

/-- The libc `strncpy(dst, src, n)`: the first `n` bytes of `dst` become the string of
`src` cut at `n` bytes and padded with zero bytes; the rest of `dst` is kept. -/
def strncpy (dst src : List Nat) (n : Nat) : List Nat :=
  let k := min (strlen src) n
  src.take k ++ List.replicate (n - k) 0 ++ dst.drop n

/-! ## The escaping loop of `api_data_get_handler` (lines 390-412) -/

/-- The loop `for (int i = 0; i < data_len && j < 400; i++)` of lines 393-411.
The tests on `safe_data[i]` give the same result for a signed and an unsigned `char`: a
byte above 126 is dropped either way. The first argument counts the iterations left before `i` reaches `data_len`; the
result is the final `j` and the final content of `escaped_data`. -/
def escapeLoop (safe_data : List Nat) : Nat → Nat → Nat → List Nat → Nat × List Nat
  | 0, _, j, escaped_data => (j, escaped_data)
  | r + 1, i, j, escaped_data =>
    if j < 400 then
      let c := safe_data.getD i 0
      if c = 34 then
        escapeLoop safe_data r (i + 1) (j + 2) ((escaped_data.set j 92).set (j + 1) 34)
      else if c = 92 then
        escapeLoop safe_data r (i + 1) (j + 2) ((escaped_data.set j 92).set (j + 1) 92)
      else if c = 10 then
        escapeLoop safe_data r (i + 1) (j + 2) ((escaped_data.set j 92).set (j + 1) 110)
      else if c = 13 then
        escapeLoop safe_data r (i + 1) (j + 2) ((escaped_data.set j 92).set (j + 1) 114)
      else if 32 ≤ c ∧ c ≤ 126 then
        escapeLoop safe_data r (i + 1) (j + 1) (escaped_data.set j c)
      else
        escapeLoop safe_data r (i + 1) j escaped_data
    else (j, escaped_data)

/-- Lines 391-412: the loop run from `i = 0`, `j = 0` over `safe_data[0 .. data_len)`,
then `escaped_data[j] = 0`; the result is the text that `%s` later reads from
`escaped_data`. -/
def escapeWindow (safe_data : List Nat) (data_len : Nat) (escaped_data : List Nat) : List Nat :=
  let r := escapeLoop safe_data data_len 0 0 escaped_data
  cstr (r.2.set r.1 0)

/-! ## The sanitisation of the specification (section 4.4) -/

/-- The image of one byte under the sanitisation rule of the specification. -/
def escapeByte (c : Nat) : List Nat :=
  if c = 34 then [92, 34]
  else if c = 92 then [92, 92]
  else if c = 10 then [92, 110]
  else if c = 13 then [92, 114]
  else if 32 ≤ c ∧ c ≤ 126 then [c]
  else []

/-- The sanitised form of a window: the per-byte images in input order. -/
def sanitize (w : List Nat) : List Nat := w.flatMap escapeByte

/-- A byte that the rule replaces by a two-character escape. -/
def isEscaped (c : Nat) : Bool := c = 34 || c = 92 || c = 10 || c = 13

/-- A byte that the rule emits unchanged. -/
def isVerbatim (c : Nat) : Bool := 32 ≤ c && c ≤ 126 && c != 34 && c != 92

/-! ## Formatting (`snprintf`) -/

/-- The bytes of a string literal of the source. -/
def lit (s : String) : List Nat := s.toList.map Char.toNat

/-- The conversions `%zu` and `%d` on a non-negative value: its decimal digits. -/
def fmtDec (n : Nat) : List Nat := (Nat.toDigits 10 n).map Char.toNat

/-- The call `snprintf(response, size, ...)` followed by the read of `response` as a C string
(`HTTPD_RESP_USE_STRLEN`): the formatted text cut to `size - 1` bytes, then terminated. -/
def snprintf (size : Nat) (text : List Nat) : List Nat := cstr (text.take (size - 1) ++ [0])

/-! ## Shared state and the reader task `uart_read_task` (lines 183-267) -/

/-- The globals `uart_buffer` (line 44) and `uart_total_received` (line 46). -/
@[ext]
structure Shared where
  uart_buffer : List Nat
  uart_total_received : Nat
deriving DecidableEq

/-- The locals of `uart_read_task` that live across iterations (lines 185-187). The two
`int` counters are only logged and compared; they are kept as unbounded naturals. -/
structure ReaderLocals where
  total_received : Nat
  read_attempts : Nat
  consecutive_zeros : Nat
deriving DecidableEq

/-- What the serial driver does in one `uart_read_bytes` call: it delivers the bytes that
arrived before the timeout (possibly none), or fails with a negative return value
`-(code + 1)`. -/
inductive UartRead where
  | bytes (data : List Nat)
  | error (code : Nat)
deriving DecidableEq

/-- The input of one iteration of the reader loop: the pending count that
`uart_get_buffered_data_len` reports and the outcome of the read. -/
structure CycleInput where
  buffered_size : Nat
  rx : UartRead
deriving DecidableEq

/-- The ESP-IDF call `uart_read_bytes(port, buf, length, ticks)`: it copies at most `length`
delivered bytes to the start of `buf` and returns their count; on a failure it copies
nothing and returns the negative value. -/
def uart_read_bytes (rx : UartRead) (buf : List Nat) (length : Nat) : Int × List Nat :=
  match rx with
  | UartRead.bytes data =>
    let d := data.take length
    ((d.length : Int), d ++ buf.drop d.length)
  | UartRead.error code => (-((code : Int) + 1), buf)

/-- One iteration of the `while (1)` loop of `uart_read_task` (lines 191-265); logging is
omitted, it changes no variable. -/
def uart_read_cycle (s : Shared) (l : ReaderLocals) (inp : CycleInput) : Shared × ReaderLocals :=
  let read_attempts := l.read_attempts + 1
  let consecutive_zeros := if inp.buffered_size > 0 then 0 else l.consecutive_zeros + 1
  let rd := uart_read_bytes inp.rx s.uart_buffer (BUF_SIZE - 1)
  let len := rd.1
  let uart_buffer := rd.2
  if len > 0 then
    ({ uart_buffer := uart_buffer.set len.toNat 0,
       uart_total_received := (s.uart_total_received + len.toNat) % SIZE_T_MOD },
     { total_received := (l.total_received + len.toNat) % SIZE_T_MOD,
       read_attempts := read_attempts,
       consecutive_zeros := 0 })
  else if len = 0 then
    ({ uart_buffer := uart_buffer, uart_total_received := s.uart_total_received },
     { total_received := l.total_received,
       read_attempts := read_attempts,
       consecutive_zeros := consecutive_zeros })
  else
    ({ uart_buffer := uart_buffer, uart_total_received := s.uart_total_received },
     { total_received := l.total_received,
       read_attempts := read_attempts,
       consecutive_zeros := consecutive_zeros })

/-- The reader loop run over a finite sequence of iterations. -/
def uart_read_task (s : Shared) (l : ReaderLocals) : List CycleInput → Shared × ReaderLocals
  | [] => (s, l)
  | inp :: rest =>
    let r := uart_read_cycle s l inp
    uart_read_task r.1 r.2 rest

/-- The globals at process start: `uart_buffer` is a zero-initialised static array of
`BUF_SIZE` bytes and `uart_total_received` is 0. -/
def initShared : Shared :=
  { uart_buffer := List.replicate BUF_SIZE 0, uart_total_received := 0 }

/-- The locals of `uart_read_task` at its start (lines 185-187). -/
def initLocals : ReaderLocals :=
  { total_received := 0, read_attempts := 0, consecutive_zeros := 0 }

/-- The number of bytes one iteration receives: the count of a delivered read cut to the
requested `BUF_SIZE - 1`, and 0 for a failed read. -/
def readCount (inp : CycleInput) : Nat :=
  match inp.rx with
  | UartRead.bytes data => (data.take (BUF_SIZE - 1)).length
  | UartRead.error _ => 0

/-! ## The HTTP accessors -/

/-- The arguments that `api_data_get_handler` passes to `snprintf` (line 416). -/
structure DataFields where
  data : List Nat
  length : Nat
  buffered : Nat
  total_received : Nat
deriving DecidableEq

/-- Lines 376-412 and 416 of `api_data_get_handler`: the four values formatted into the
response. `buffered` is the count reported by `uart_get_buffered_data_len`; `safe_data`
and `escaped_data` are the stack arrays as found on entry. -/
def apiDataFields (s : Shared) (buffered : Nat) (safe_data escaped_data : List Nat) :
    DataFields :=
  let data_len := strlen s.uart_buffer
  let data_len := if data_len > 200 then 200 else data_len
  let safe_data := strncpy safe_data s.uart_buffer data_len
  let safe_data := safe_data.set data_len 0
  { data := escapeWindow safe_data data_len escaped_data,
    length := strlen s.uart_buffer,
    buffered := buffered,
    total_received := s.uart_total_received }

/-- The text that the format string of lines 415-416 produces from its arguments. -/
def dataFormat (f : DataFields) : List Nat :=
  lit "\x7b\"data\":\"" ++ f.data ++ lit "\",\"length\":" ++ fmtDec f.length ++
    lit ",\"buffered\":" ++ fmtDec f.buffered ++ lit ",\"total_received\":" ++
    fmtDec f.total_received ++ lit "\x7d"

/-- The body sent by `api_data_get_handler` (lines 373-420). -/
def api_data_get_handler (s : Shared) (buffered : Nat) (safe_data escaped_data : List Nat) :
    List Nat :=
  snprintf 1024 (dataFormat (apiDataFields s buffered safe_data escaped_data))

/-- The body sent by `api_uart_status_handler` (lines 425-438). -/
def api_uart_status_handler (s : Shared) (buffered : Nat) : List Nat :=
  snprintf 512
    (lit "\x7b\"uart_active\":true,\"rx_pin\":" ++ fmtDec UART_RX_PIN ++
      lit ",\"tx_pin\":" ++ fmtDec UART_TX_PIN ++
      lit ",\"baud_rate\":115200,\"buffered_bytes\":" ++ fmtDec buffered ++
      lit ",\"total_received\":" ++ fmtDec s.uart_total_received ++
      lit ",\"buffer_size\":" ++ fmtDec BUF_SIZE ++ lit "\x7d")

/-! ## Startup: `init_uart` (lines 51-121) and `app_main` (lines 487-518) -/

/-- The ESP-IDF code `ESP_OK`. -/
def ESP_OK : Int := 0

/-- The ESP-IDF code `ESP_FAIL`. -/
def ESP_FAIL : Int := -1

/-- The ESP-IDF code `ESP_ERR_NVS_NO_FREE_PAGES` (`ESP_ERR_NVS_BASE + 0x0d`). -/
def ESP_ERR_NVS_NO_FREE_PAGES : Int := 0x110d

/-- The ESP-IDF code `ESP_ERR_NVS_NEW_VERSION_FOUND` (`ESP_ERR_NVS_BASE + 0x10`). -/
def ESP_ERR_NVS_NEW_VERSION_FOUND : Int := 0x1110

/-- The calls of the startup path that matter to its outcome, in the order made. -/
inductive StartupStep where
  | nvs_flash_init
  | nvs_flash_erase
  | uart_driver_install
  | uart_param_config
  | uart_set_pin
  | uart_flush
  | uart_write_test_message
  | init_wifi_ap
  | create_uart_read_task
  | create_uart_pin_monitor_task
  | create_uart_test_task
  | start_webserver
  | aborted
deriving DecidableEq

/-- The return codes of the driver calls made during startup. -/
structure StartupEnv where
  nvs_flash_init : Int
  nvs_flash_erase : Int
  nvs_flash_init_again : Int
  uart_driver_install : Int
  uart_param_config : Int
  uart_set_pin : Int
  wifi : Int
deriving DecidableEq

/-- The function `init_uart` (lines 51-121). It returns `void`: the result is only the list of
the calls it made. Each failed step logs and leaves the function (lines 77-80, 84-87,
92-95). -/
def init_uart (env : StartupEnv) : List StartupStep :=
  if env.uart_driver_install ≠ ESP_OK then [StartupStep.uart_driver_install]
  else if env.uart_param_config ≠ ESP_OK then
    [StartupStep.uart_driver_install, StartupStep.uart_param_config]
  else if env.uart_set_pin ≠ ESP_OK then
    [StartupStep.uart_driver_install, StartupStep.uart_param_config, StartupStep.uart_set_pin]
  else
    [StartupStep.uart_driver_install, StartupStep.uart_param_config, StartupStep.uart_set_pin,
     StartupStep.uart_flush, StartupStep.uart_write_test_message]

/-- The function `init_wifi_ap` (lines 289-316): every step is wrapped in `ESP_ERROR_CHECK`,
so a code other than `ESP_OK` aborts; `env.wifi` is the first such code, or `ESP_OK`.
The result is the calls made and whether startup goes on. -/
def init_wifi_ap (env : StartupEnv) : List StartupStep × Bool :=
  if env.wifi ≠ ESP_OK then ([StartupStep.init_wifi_ap, StartupStep.aborted], false)
  else ([StartupStep.init_wifi_ap], true)

/-- The part of `app_main` after the NVS initialisation (lines 499-517). -/
def app_main_after_nvs (env : StartupEnv) : List StartupStep :=
  let uart := init_uart env
  let wifi := init_wifi_ap env
  if wifi.2 then
    uart ++ wifi.1 ++
      [StartupStep.create_uart_read_task, StartupStep.create_uart_pin_monitor_task,
       StartupStep.create_uart_test_task, StartupStep.start_webserver]
  else uart ++ wifi.1

/-- The function `app_main` (lines 487-518): the calls it makes, ending in `aborted` when an
`ESP_ERROR_CHECK` fails. -/
def app_main (env : StartupEnv) : List StartupStep :=
  if env.nvs_flash_init = ESP_ERR_NVS_NO_FREE_PAGES ∨
      env.nvs_flash_init = ESP_ERR_NVS_NEW_VERSION_FOUND then
    if env.nvs_flash_erase ≠ ESP_OK then
      [StartupStep.nvs_flash_init, StartupStep.nvs_flash_erase, StartupStep.aborted]
    else if env.nvs_flash_init_again ≠ ESP_OK then
      [StartupStep.nvs_flash_init, StartupStep.nvs_flash_erase, StartupStep.nvs_flash_init,
       StartupStep.aborted]
    else
      [StartupStep.nvs_flash_init, StartupStep.nvs_flash_erase, StartupStep.nvs_flash_init] ++
        app_main_after_nvs env
  else if env.nvs_flash_init ≠ ESP_OK then [StartupStep.nvs_flash_init, StartupStep.aborted]
  else [StartupStep.nvs_flash_init] ++ app_main_after_nvs env

/-! ## Written indices, tokens and the quoting check -/

/-- The loop of lines 393-411 once more, keeping instead of the array the indices of
`escaped_data` that it writes, in the order written. -/
def escapeLoopWrites (safe_data : List Nat) : Nat → Nat → Nat → List Nat
  | 0, _, _ => []
  | r + 1, i, j =>
    if j < 400 then
      let c := safe_data.getD i 0
      if c = 34 then j :: (j + 1) :: escapeLoopWrites safe_data r (i + 1) (j + 2)
      else if c = 92 then j :: (j + 1) :: escapeLoopWrites safe_data r (i + 1) (j + 2)
      else if c = 10 then j :: (j + 1) :: escapeLoopWrites safe_data r (i + 1) (j + 2)
      else if c = 13 then j :: (j + 1) :: escapeLoopWrites safe_data r (i + 1) (j + 2)
      else if 32 ≤ c ∧ c ≤ 126 then j :: escapeLoopWrites safe_data r (i + 1) (j + 1)
      else escapeLoopWrites safe_data r (i + 1) j
    else []

/-- Every index of `escaped_data` written by lines 392-412: the writes of the loop, then the
terminator write `escaped_data[j] = 0` of line 412. -/
def escapeWindowWrites (safe_data : List Nat) (data_len : Nat) (escaped_data : List Nat) :
    List Nat :=
  escapeLoopWrites safe_data data_len 0 0 ++ [(escapeLoop safe_data data_len 0 0 escaped_data).1]

/-- A complete token of the escaped text: one verbatim byte, or one of the four two-character
escapes. -/
def isToken (t : List Nat) : Bool :=
  match t with
  | [c] => isVerbatim c
  | [a, b] => a == 92 && (b == 34 || b == 92 || b == 110 || b == 114)
  | _ => false

/-- The tokens produced by the bytes of a window, in order; a dropped byte produces none. -/
def escapeTokens (w : List Nat) : List (List Nat) :=
  (w.map escapeByte).filter (fun t => !t.isEmpty)

/-- The number of backslashes that end a text. A text that ends with the first half of an
escape pair, after complete tokens, ends with an odd number of them. -/
def trailingBackslashes (y : List Nat) : Nat := (y.reverse.takeWhile (fun b => b == 92)).length

/-- The scan a JSON reader makes of the inside of a string: a backslash takes the next byte
with it; the text is accepted when no quote is met outside such a pair and no backslash is
left without its second byte. -/
def noUnescapedQuote : List Nat → Bool
  | [] => true
  | c :: rest =>
    if c = 92 then
      match rest with
      | [] => false
      | _ :: rest2 => noUnescapedQuote rest2
    else if c = 34 then false
    else noUnescapedQuote rest

/-! ## Lemmas on arrays and C strings -/

theorem take_succ_set (a : List Nat) (j v : Nat) (h : j < a.length) :
    (a.set j v).take (j + 1) = a.take j ++ [v] := by
  induction a generalizing j with
  | nil => simp at h
  | cons x xs ih =>
    cases j with
    | zero => simp
    | succ k =>
      have hk : k < xs.length := by simpa using h
      simp [ih k hk]

theorem take_set_two (a : List Nat) (j u v : Nat) (h : j + 1 < a.length) :
    ((a.set j u).set (j + 1) v).take (j + 2) = a.take j ++ [u, v] := by
  have h1 : j + 1 < (a.set j u).length := by simpa using h
  rw [take_succ_set _ _ _ h1, take_succ_set _ _ _ (by omega)]
  simp

theorem cstr_set_zero (a : List Nat) (j : Nat) (h : j < a.length)
    (hnz : ∀ b ∈ a.take j, b ≠ 0) : cstr (a.set j 0) = a.take j := by
  induction a generalizing j with
  | nil => simp at h
  | cons x xs ih =>
    cases j with
    | zero => simp [cstr]
    | succ k =>
      have hk : k < xs.length := by simpa using h
      have hx : x ≠ 0 := hnz x (by simp)
      have hrest : ∀ b ∈ xs.take k, b ≠ 0 := fun b hb => hnz b (by simp [hb])
      have := ih k hk hrest
      simp only [cstr] at this
      simp [cstr, hx, this]

theorem cstr_append_zero (w rest : List Nat) (hnz : ∀ b ∈ w, b ≠ 0) :
    cstr (w ++ 0 :: rest) = w := by
  induction w with
  | nil => simp [cstr]
  | cons x xs ih =>
    have hx : x ≠ 0 := hnz x (by simp)
    have := ih (fun b hb => hnz b (by simp [hb]))
    simp only [cstr] at this
    simp [cstr, hx, this]

/-! ## Lemmas on the sanitisation -/

theorem escapeByte_range (c b : Nat) (hb : b ∈ escapeByte c) : 32 ≤ b ∧ b ≤ 126 := by
  unfold escapeByte at hb
  split_ifs at hb <;> simp at hb <;> omega

theorem sanitize_range (w : List Nat) (b : Nat) (hb : b ∈ sanitize w) : 32 ≤ b ∧ b ≤ 126 := by
  simp only [sanitize, List.mem_flatMap] at hb
  obtain ⟨c, _, hc⟩ := hb
  exact escapeByte_range c b hc

theorem escapeByte_length_le (c : Nat) : (escapeByte c).length ≤ 2 := by
  unfold escapeByte
  split_ifs <;> simp

theorem sanitize_cons (c : Nat) (w : List Nat) : sanitize (c :: w) = escapeByte c ++ sanitize w := by
  simp [sanitize]

theorem sanitize_append (u w : List Nat) : sanitize (u ++ w) = sanitize u ++ sanitize w := by
  simp [sanitize]

theorem sanitize_length_le (w : List Nat) : (sanitize w).length ≤ 2 * w.length := by
  induction w with
  | nil => simp [sanitize]
  | cons c w ih =>
    have := escapeByte_length_le c
    simp only [sanitize_cons, List.length_append, List.length_cons]
    omega

/-- The loop of lines 393-411 on an array of 401 bytes: when the remaining window cannot
push `j` past 400, the guard `j < 400` never stops it, and the first `j` bytes of
`escaped_data` grow by the sanitised form of the remaining window. -/
theorem escapeLoop_spec (safe_data : List Nat) (r i j : Nat) (escaped_data : List Nat)
    (hlen : escaped_data.length = 401) (hj : j + 2 * r ≤ 400) (hi : i + r ≤ safe_data.length) :
    (escapeLoop safe_data r i j escaped_data).2.length = 401 ∧
    (escapeLoop safe_data r i j escaped_data).1 =
      j + (sanitize ((safe_data.drop i).take r)).length ∧
    (escapeLoop safe_data r i j escaped_data).2.take (escapeLoop safe_data r i j escaped_data).1 =
      escaped_data.take j ++ sanitize ((safe_data.drop i).take r) := by
  induction r generalizing i j escaped_data with
  | zero => simp [escapeLoop, sanitize, hlen]
  | succ r ih =>
    have hil : i < safe_data.length := by omega
    have hj4 : j < 400 := by omega
    have hwin : (safe_data.drop i).take (r + 1) = safe_data[i] :: (safe_data.drop (i + 1)).take r := by
      rw [List.drop_eq_getElem_cons hil, List.take_succ_cons]
    have hget : safe_data.getD i 0 = safe_data[i] := List.getD_eq_getElem _ _ hil
    rw [hwin, sanitize_cons]
    simp only [escapeLoop, hj4, if_true, hget]
    unfold escapeByte
    split_ifs with h1 h2 h3 h4 h5
    · obtain ⟨a, b, c⟩ := ih (i + 1) (j + 2) ((escaped_data.set j 92).set (j + 1) 34)
        (by simp [hlen]) (by omega) (by omega)
      refine ⟨a, ?_, ?_⟩
      · rw [b]; simp; omega
      · rw [c, take_set_two _ _ _ _ (by omega)]; simp
    · obtain ⟨a, b, c⟩ := ih (i + 1) (j + 2) ((escaped_data.set j 92).set (j + 1) 92)
        (by simp [hlen]) (by omega) (by omega)
      refine ⟨a, ?_, ?_⟩
      · rw [b]; simp; omega
      · rw [c, take_set_two _ _ _ _ (by omega)]; simp
    · obtain ⟨a, b, c⟩ := ih (i + 1) (j + 2) ((escaped_data.set j 92).set (j + 1) 110)
        (by simp [hlen]) (by omega) (by omega)
      refine ⟨a, ?_, ?_⟩
      · rw [b]; simp; omega
      · rw [c, take_set_two _ _ _ _ (by omega)]; simp
    · obtain ⟨a, b, c⟩ := ih (i + 1) (j + 2) ((escaped_data.set j 92).set (j + 1) 114)
        (by simp [hlen]) (by omega) (by omega)
      refine ⟨a, ?_, ?_⟩
      · rw [b]; simp; omega
      · rw [c, take_set_two _ _ _ _ (by omega)]; simp
    · obtain ⟨a, b, c⟩ := ih (i + 1) (j + 1) (escaped_data.set j safe_data[i])
        (by simp [hlen]) (by omega) (by omega)
      refine ⟨a, ?_, ?_⟩
      · rw [b]; simp; omega
      · rw [c, take_succ_set _ _ _ (by omega)]; simp
    · obtain ⟨a, b, c⟩ := ih (i + 1) j escaped_data hlen (by omega) (by omega)
      exact ⟨a, by rw [b]; simp, by rw [c]; simp⟩

/-- Lines 391-412 on a window of at most 200 bytes: the text left in `escaped_data` is the
sanitised form of `safe_data[0 .. data_len)`, whatever the array held before. -/
theorem escapeWindow_eq (safe_data : List Nat) (data_len : Nat) (escaped_data : List Nat)
    (hlen : escaped_data.length = 401) (hd : data_len ≤ 200) (hs : data_len ≤ safe_data.length) :
    escapeWindow safe_data data_len escaped_data = sanitize (safe_data.take data_len) := by
  obtain ⟨a, b, c⟩ := escapeLoop_spec safe_data data_len 0 0 escaped_data hlen (by omega) (by omega)
  simp only [List.drop_zero, List.take_zero, List.nil_append, Nat.zero_add] at b c
  have hb : (escapeLoop safe_data data_len 0 0 escaped_data).1 ≤ 400 := by
    have := sanitize_length_le (safe_data.take data_len)
    have h2 : (safe_data.take data_len).length ≤ 200 := by simp; omega
    omega
  unfold escapeWindow
  simp only
  rw [cstr_set_zero _ _ (by omega), c]
  rw [c]
  intro x hx
  have := sanitize_range _ _ hx
  omega

theorem cstr_eq_take (a : List Nat) : cstr a = a.take (strlen a) := by
  induction a with
  | nil => simp [cstr, strlen]
  | cons x xs ih =>
    by_cases hx : x = 0
    · simp [cstr, strlen, hx]
    · simp only [cstr, strlen] at ih
      simp only [cstr, strlen, List.takeWhile_cons, bne_iff_ne, ne_eq, hx, not_false_eq_true,
        if_true, List.length_cons, List.take_succ_cons]
      rw [← ih]

theorem strlen_le (a : List Nat) : strlen a ≤ a.length := by
  simp only [strlen, cstr]
  exact (List.takeWhile_sublist _).length_le

theorem cstr_nonzero (a : List Nat) (b : Nat) (hb : b ∈ cstr a) : b ≠ 0 := by
  have := List.mem_takeWhile_imp hb
  simpa using this

theorem cstr_of_nonzero (w : List Nat) (hnz : ∀ b ∈ w, b ≠ 0) : cstr w = w := by
  simp only [cstr, List.takeWhile_eq_self_iff]
  intro x hx
  simpa using hnz x hx

theorem cstr_append_zero_cstr (d rest : List Nat) : cstr (d ++ 0 :: rest) = cstr d := by
  induction d with
  | nil => simp [cstr]
  | cons x xs ih =>
    by_cases hx : x = 0
    · simp [cstr, hx]
    · simp only [cstr] at ih
      simp [cstr, hx, ih]

/-! ## Lemmas on formatting -/

theorem digitChar_range (d : Nat) (hd : d < 10) :
    48 ≤ (Nat.digitChar d).toNat ∧ (Nat.digitChar d).toNat ≤ 57 := by
  interval_cases d <;> decide

theorem toDigitsCore_range (f n : Nat) (acc : List Char) (c : Char)
    (hc : c ∈ Nat.toDigitsCore 10 f n acc) :
    c ∈ acc ∨ (48 ≤ c.toNat ∧ c.toNat ≤ 57) := by
  induction f generalizing n acc with
  | zero => left; simpa [Nat.toDigitsCore] using hc
  | succ f ih =>
    simp only [Nat.toDigitsCore] at hc
    split_ifs at hc with h0
    · rcases List.mem_cons.mp hc with h | h
      · right; rw [h]; exact digitChar_range _ (Nat.mod_lt _ (by decide))
      · left; exact h
    · rcases ih _ _ hc with h | h
      · rcases List.mem_cons.mp h with h | h
        · right; rw [h]; exact digitChar_range _ (Nat.mod_lt _ (by decide))
        · left; exact h
      · right; exact h

theorem fmtDec_range (n b : Nat) (hb : b ∈ fmtDec n) : 48 ≤ b ∧ b ≤ 57 := by
  simp only [fmtDec, List.mem_map] at hb
  obtain ⟨c, hc, rfl⟩ := hb
  rcases toDigitsCore_range _ _ _ _ hc with h | h
  · simp at h
  · exact h

theorem fmtDec_length (n : Nat) (hn : n < SIZE_T_MOD) : (fmtDec n).length ≤ 10 := by
  simp only [fmtDec, List.length_map, Nat.toDigits]
  exact Nat.toDigitsCore_length 10 (by decide) _ n 10
    (lt_of_lt_of_le hn (by decide)) (by decide)

theorem snprintf_fits (size : Nat) (text : List Nat) (hlen : text.length < size)
    (hnz : ∀ b ∈ text, b ≠ 0) : snprintf size text = text := by
  unfold snprintf
  rw [List.take_of_length_le (by omega)]
  have := cstr_append_zero text [] hnz
  simpa using this

/-! ## Lemmas on the reader task -/

theorem set_drop_zero (buf : List Nat) (k : Nat) (h : k < buf.length) :
    (buf.drop k).set 0 0 = 0 :: buf.drop (k + 1) := by
  rw [List.drop_eq_getElem_cons h]
  rfl

/-- The effect of an iteration whose read delivers at least one byte: the delivered bytes
(cut to `BUF_SIZE - 1`) fill the start of `uart_buffer`, a zero byte follows them, the
bytes behind it are the old ones, and the counter grows by the count modulo `2 ^ 32`. -/
theorem uart_read_cycle_pos (s : Shared) (l : ReaderLocals) (n : Nat) (data : List Nat)
    (hbuf : s.uart_buffer.length = BUF_SIZE) (hd : data.take (BUF_SIZE - 1) ≠ []) :
    (uart_read_cycle s l ⟨n, UartRead.bytes data⟩).1 =
      { uart_buffer := data.take (BUF_SIZE - 1) ++
          0 :: s.uart_buffer.drop ((data.take (BUF_SIZE - 1)).length + 1),
        uart_total_received :=
          (s.uart_total_received + (data.take (BUF_SIZE - 1)).length) % SIZE_T_MOD } := by
  have hpos : 0 < (data.take (BUF_SIZE - 1)).length := List.length_pos.mpr hd
  have hle : (data.take (BUF_SIZE - 1)).length ≤ BUF_SIZE - 1 := by
    rw [List.length_take]; exact Nat.min_le_left _ _
  have hlt : (data.take (BUF_SIZE - 1)).length < s.uart_buffer.length := by
    rw [hbuf]; simp only [BUF_SIZE, UART_BUF_SIZE] at hle ⊢; omega
  have hcast : (0 : Int) < ((data.take (BUF_SIZE - 1)).length : Int) := by exact_mod_cast hpos
  simp only [uart_read_cycle, uart_read_bytes, hcast, if_true, Int.toNat_ofNat, gt_iff_lt]
  congr 1
  rw [List.set_append_right _ _ (le_refl _), Nat.sub_self, set_drop_zero _ _ hlt]

/-- An iteration whose read delivers nothing or fails leaves both globals as they were. -/
theorem uart_read_cycle_nonpos (s : Shared) (l : ReaderLocals) (inp : CycleInput)
    (h : (uart_read_bytes inp.rx s.uart_buffer (BUF_SIZE - 1)).1 ≤ 0) :
    (uart_read_cycle s l inp).1 = s := by
  have hbuf : (uart_read_bytes inp.rx s.uart_buffer (BUF_SIZE - 1)).2 = s.uart_buffer := by
    cases hrx : inp.rx with
    | bytes data =>
      rw [hrx] at h
      simp only [uart_read_bytes] at h ⊢
      have h0 : (data.take (BUF_SIZE - 1)).length = 0 := by omega
      rw [List.length_eq_zero.mp h0]
      simp
    | error code => simp [uart_read_bytes]
  have hn : ¬ (uart_read_bytes inp.rx s.uart_buffer (BUF_SIZE - 1)).1 > 0 := by omega
  simp only [uart_read_cycle, hn, if_false, hbuf]
  split_ifs <;> rfl

/-! ## Lemmas on the data accessor -/

/-- The `data` argument of the response is the sanitised form of the first 200 bytes of the
string held in `uart_buffer`, whatever the stack arrays held before. -/
theorem apiDataFields_data (s : Shared) (buffered : Nat) (safe_data escaped_data : List Nat)
    (hs : safe_data.length = 201) (he : escaped_data.length = 401) :
    (apiDataFields s buffered safe_data escaped_data).data =
      sanitize ((cstr s.uart_buffer).take 200) := by
  have hle := strlen_le s.uart_buffer
  have key : ∀ k, k ≤ strlen s.uart_buffer → k ≤ 200 →
      escapeWindow ((strncpy safe_data s.uart_buffer k).set k 0) k escaped_data =
        sanitize (s.uart_buffer.take k) := by
    intro k hk hk2
    have hcopy : strncpy safe_data s.uart_buffer k = s.uart_buffer.take k ++ safe_data.drop k := by
      simp [strncpy, Nat.min_eq_right hk]
    have htl : (s.uart_buffer.take k).length = k := by
      rw [List.length_take]; omega
    rw [escapeWindow_eq _ _ _ he hk2 (by simp [hcopy, htl, hs]), hcopy]
    congr 1
    rw [List.set_append_right _ _ (by omega), List.take_append_of_le_length (by omega)]
    simp [htl]
  simp only [apiDataFields]
  rw [cstr_eq_take, List.take_take]
  split_ifs with h
  · rw [key 200 (by omega) (le_refl _), Nat.min_eq_left (by omega)]
  · rw [key _ (le_refl _) (by omega), Nat.min_eq_right (by omega)]

theorem escapeByte_length (c : Nat) :
    (escapeByte c).length = (if isVerbatim c = true then 1 else 0) +
      2 * (if isEscaped c = true then 1 else 0) := by
  by_cases h1 : c = 34
  · subst h1; decide
  by_cases h2 : c = 92
  · subst h2; decide
  by_cases h3 : c = 10
  · subst h3; decide
  by_cases h4 : c = 13
  · subst h4; decide
  have he : isEscaped c = false := by simp [isEscaped, h1, h2, h3, h4]
  by_cases h5 : 32 ≤ c ∧ c ≤ 126
  · have hv : isVerbatim c = true := by simp [isVerbatim, h1, h2, h5.1, h5.2]
    simp [escapeByte, h1, h2, h3, h4, h5, he, hv]
  · have hv : isVerbatim c = false := by
      simp only [isVerbatim, Bool.and_eq_false_imp, Bool.and_eq_true, decide_eq_true_eq]
      intro a
      exact absurd a.1 h5
    simp [escapeByte, h1, h2, h3, h4, h5, he, hv]

theorem sanitize_length (w : List Nat) :
    (sanitize w).length = w.countP isVerbatim + 2 * w.countP isEscaped := by
  induction w with
  | nil => simp [sanitize]
  | cons c w ih =>
    rw [sanitize_cons, List.length_append, ih, List.countP_cons, List.countP_cons,
      escapeByte_length]
    omega

theorem escapeByte_of_verbatim (c : Nat) (hc : isVerbatim c = true) : escapeByte c = [c] := by
  simp only [isVerbatim, Bool.and_eq_true, decide_eq_true_eq, bne_iff_ne, ne_eq] at hc
  obtain ⟨⟨⟨h1, h2⟩, h3⟩, h4⟩ := hc
  have h5 : c ≠ 10 := by omega
  have h6 : c ≠ 13 := by omega
  simp [escapeByte, h1, h2, h3, h4, h5, h6]

/-- A text made only of verbatim bytes is its own sanitised form. -/
theorem sanitize_of_verbatim (y : List Nat) (hy : ∀ b ∈ y, isVerbatim b = true) :
    sanitize y = y := by
  induction y with
  | nil => simp [sanitize]
  | cons c y ih =>
    rw [sanitize_cons, escapeByte_of_verbatim c (hy c (by simp)),
      ih (fun b hb => hy b (by simp [hb]))]
    rfl

theorem lit_nonzero_data_open : ∀ b ∈ lit "\x7b\"data\":\"", b ≠ 0 := by decide

theorem lit_nonzero_length : ∀ b ∈ lit "\",\"length\":", b ≠ 0 := by decide

theorem lit_nonzero_buffered : ∀ b ∈ lit ",\"buffered\":", b ≠ 0 := by decide

theorem lit_nonzero_total : ∀ b ∈ lit ",\"total_received\":", b ≠ 0 := by decide

theorem lit_nonzero_close : ∀ b ∈ lit "\x7d", b ≠ 0 := by decide

theorem fmtDec_nonzero (n b : Nat) (hb : b ∈ fmtDec n) : b ≠ 0 := by
  have := fmtDec_range n b hb
  omega

/-- The response buffer of 1024 bytes holds the whole formatted text whenever the escaped
text has at most 400 bytes and the three counters are `size_t` values. -/
theorem dataFormat_fits (f : DataFields) (hd : f.data.length ≤ 400)
    (hdz : ∀ b ∈ f.data, b ≠ 0) (hl : f.length < SIZE_T_MOD) (hb : f.buffered < SIZE_T_MOD)
    (ht : f.total_received < SIZE_T_MOD) : snprintf 1024 (dataFormat f) = dataFormat f := by
  apply snprintf_fits
  · have h1 := fmtDec_length _ hl
    have h2 := fmtDec_length _ hb
    have h3 := fmtDec_length _ ht
    have e1 : (lit "\x7b\"data\":\"").length = 9 := by decide
    have e2 : (lit "\",\"length\":").length = 11 := by decide
    have e3 : (lit ",\"buffered\":").length = 12 := by decide
    have e4 : (lit ",\"total_received\":").length = 18 := by decide
    have e5 : (lit "\x7d").length = 1 := by decide
    simp only [dataFormat, List.length_append, e1, e2, e3, e4, e5]
    omega
  · intro b hb
    simp only [dataFormat, List.mem_append] at hb
    rcases hb with ((((((((h | h) | h) | h) | h) | h) | h) | h) | h)
    · exact lit_nonzero_data_open b h
    · exact hdz b h
    · exact lit_nonzero_length b h
    · exact fmtDec_nonzero _ b h
    · exact lit_nonzero_buffered b h
    · exact fmtDec_nonzero _ b h
    · exact lit_nonzero_total b h
    · exact fmtDec_nonzero _ b h
    · exact lit_nonzero_close b h

/-- The body of the data endpoint is the untruncated formatted text in every state whose
buffer has `BUF_SIZE` bytes and whose counters are `size_t` values. -/
theorem api_data_get_handler_eq (s : Shared) (buffered : Nat) (safe_data escaped_data : List Nat)
    (hbuf : s.uart_buffer.length = BUF_SIZE) (ht : s.uart_total_received < SIZE_T_MOD)
    (hb : buffered < SIZE_T_MOD) (hs : safe_data.length = 201)
    (he : escaped_data.length = 401) :
    api_data_get_handler s buffered safe_data escaped_data =
      dataFormat (apiDataFields s buffered safe_data escaped_data) := by
  unfold api_data_get_handler
  have hdata := apiDataFields_data s buffered safe_data escaped_data hs he
  apply dataFormat_fits
  · rw [hdata]
    have h1 := sanitize_length_le ((cstr s.uart_buffer).take 200)
    have h2 : ((cstr s.uart_buffer).take 200).length ≤ 200 := by
      rw [List.length_take]; exact Nat.min_le_left _ _
    omega
  · rw [hdata]
    intro b hb
    have := sanitize_range _ _ hb
    omega
  · have := strlen_le s.uart_buffer
    simp only [apiDataFields]
    rw [hbuf] at this
    exact lt_of_le_of_lt this (by decide)
  · exact hb
  · exact ht

/-! ## Lemmas on the counter -/

/-- The counter after one iteration: unchanged when nothing was received, otherwise the sum
of the old value and the count, modulo `2 ^ 32`. -/
theorem uart_read_cycle_total (s : Shared) (l : ReaderLocals) (inp : CycleInput) :
    (uart_read_cycle s l inp).1.uart_total_received =
      if readCount inp = 0 then s.uart_total_received
      else (s.uart_total_received + readCount inp) % SIZE_T_MOD := by
  obtain ⟨n, rx⟩ := inp
  cases rx with
  | bytes data =>
    by_cases h0 : (data.take (BUF_SIZE - 1)).length = 0
    · have hle : (uart_read_bytes (CycleInput.mk n (UartRead.bytes data)).rx s.uart_buffer
          (BUF_SIZE - 1)).1 ≤ 0 := by
        simp only [uart_read_bytes]
        omega
      rw [uart_read_cycle_nonpos s l _ hle]
      simp only [readCount, h0, if_true]
    · have hp : (0 : Int) < ((data.take (BUF_SIZE - 1)).length : Int) := by omega
      simp only [uart_read_cycle, uart_read_bytes, readCount, h0, if_false, gt_iff_lt, hp,
        if_true, Int.toNat_ofNat]
  | error code =>
    have hle : (uart_read_bytes (CycleInput.mk n (UartRead.error code)).rx s.uart_buffer
        (BUF_SIZE - 1)).1 ≤ 0 := by
      simp only [uart_read_bytes]
      omega
    rw [uart_read_cycle_nonpos s l _ hle]
    simp only [readCount, if_true]

/-- The counter after `k` iterations that each receive `n > 0` bytes. -/
theorem uart_read_task_replicate_total (s : Shared) (l : ReaderLocals) (inp : CycleInput)
    (k : Nat) (hn : readCount inp ≠ 0) (hs : s.uart_total_received < SIZE_T_MOD) :
    (uart_read_task s l (List.replicate k inp)).1.uart_total_received =
      (s.uart_total_received + k * readCount inp) % SIZE_T_MOD := by
  induction k generalizing s l with
  | zero => simp [uart_read_task, Nat.mod_eq_of_lt hs]
  | succ k ih =>
    simp only [List.replicate_succ, uart_read_task]
    have hstep := uart_read_cycle_total s l inp
    rw [if_neg hn] at hstep
    rw [ih _ _ (by rw [hstep]; exact Nat.mod_lt _ (by decide)), hstep, Nat.mod_add_mod]
    congr 1
    ring

/-! ## Lemmas on re-sanitising -/

theorem escapeByte_no_backslash (c : Nat) (h : 92 ∉ escapeByte c) :
    (escapeByte c).length ≤ 1 ∧ ∀ b ∈ escapeByte c, isVerbatim b = true := by
  by_cases h1 : c = 34
  · subst h1; exact absurd (by decide) h
  by_cases h2 : c = 92
  · subst h2; exact absurd (by decide) h
  by_cases h3 : c = 10
  · subst h3; exact absurd (by decide) h
  by_cases h4 : c = 13
  · subst h4; exact absurd (by decide) h
  by_cases h5 : 32 ≤ c ∧ c ≤ 126
  · have he : escapeByte c = [c] := by simp [escapeByte, h1, h2, h3, h4, h5]
    rw [he]
    refine ⟨by simp, ?_⟩
    intro b hb
    rw [List.mem_singleton.mp hb]
    simp [isVerbatim, h1, h2, h5.1, h5.2]
  · have he : escapeByte c = [] := by simp [escapeByte, h1, h2, h3, h4, h5]
    rw [he]
    simp

theorem sanitize_no_backslash (w : List Nat) (h : 92 ∉ sanitize w) :
    (sanitize w).length ≤ w.length ∧ ∀ b ∈ sanitize w, isVerbatim b = true := by
  induction w with
  | nil => simp [sanitize]
  | cons c w ih =>
    rw [sanitize_cons] at h ⊢
    have hc : 92 ∉ escapeByte c := fun hm => h (List.mem_append_left _ hm)
    have hw : 92 ∉ sanitize w := fun hm => h (List.mem_append_right _ hm)
    obtain ⟨a1, a2⟩ := escapeByte_no_backslash c hc
    obtain ⟨b1, b2⟩ := ih hw
    refine ⟨by simp only [List.length_append, List.length_cons]; omega, ?_⟩
    intro b hb
    rcases List.mem_append.mp hb with hb | hb
    · exact a2 b hb
    · exact b2 b hb

/-! ## Lemmas on runs of the reader task -/

/-- A run in which every read returns 0 or a negative value leaves the globals unchanged. -/
theorem uart_read_task_idle (s : Shared) (l : ReaderLocals) (inputs : List CycleInput)
    (hidle : ∀ inp ∈ inputs, ∀ buf, (uart_read_bytes inp.rx buf (BUF_SIZE - 1)).1 ≤ 0) :
    (uart_read_task s l inputs).1 = s := by
  induction inputs generalizing s l with
  | nil => rfl
  | cons inp rest ih =>
    simp only [uart_read_task]
    rw [ih _ _ (fun i hi => hidle i (List.mem_cons_of_mem _ hi))]
    exact uart_read_cycle_nonpos s l inp (hidle inp (List.mem_cons_self _ _) _)

theorem strlen_le_of_zero (buf : List Nat) (k : Nat) (h : buf[k]? = some 0) :
    strlen buf ≤ k := by
  induction buf generalizing k with
  | nil => simp at h
  | cons x xs ih =>
    cases k with
    | zero =>
      simp only [List.getElem?_cons_zero, Option.some.injEq] at h
      simp [strlen, cstr, h]
    | succ k =>
      simp only [List.getElem?_cons_succ] at h
      have := ih k h
      simp only [strlen, cstr] at this ⊢
      rw [List.takeWhile_cons]
      split_ifs
      · simp only [List.length_cons]; omega
      · simp

/-- One iteration keeps the size of `uart_buffer` and keeps a zero byte at an index of at
most `BUF_SIZE - 1` in it. -/
theorem uart_read_cycle_inv (s : Shared) (l : ReaderLocals) (inp : CycleInput)
    (hbuf : s.uart_buffer.length = BUF_SIZE)
    (hz : ∃ k, k ≤ BUF_SIZE - 1 ∧ s.uart_buffer[k]? = some 0) :
    (uart_read_cycle s l inp).1.uart_buffer.length = BUF_SIZE ∧
    ∃ k, k ≤ BUF_SIZE - 1 ∧ (uart_read_cycle s l inp).1.uart_buffer[k]? = some 0 := by
  by_cases hpos : (uart_read_bytes inp.rx s.uart_buffer (BUF_SIZE - 1)).1 ≤ 0
  · rw [uart_read_cycle_nonpos s l inp hpos]
    exact ⟨hbuf, hz⟩
  · obtain ⟨n, rx⟩ := inp
    cases rx with
    | error code =>
      exfalso
      apply hpos
      simp only [uart_read_bytes]
      omega
    | bytes data =>
      have hne : data.take (BUF_SIZE - 1) ≠ [] := by
        intro h
        apply hpos
        simp [uart_read_bytes, h]
      have hle : (data.take (BUF_SIZE - 1)).length ≤ BUF_SIZE - 1 := by
        rw [List.length_take]; exact Nat.min_le_left _ _
      rw [uart_read_cycle_pos s l n data hbuf hne]
      refine ⟨?_, (data.take (BUF_SIZE - 1)).length, hle, ?_⟩
      · simp only [List.length_append, List.length_cons, List.length_drop, hbuf]
        simp only [BUF_SIZE, UART_BUF_SIZE] at hle ⊢
        omega
      · rw [List.getElem?_append_right (le_refl _), Nat.sub_self]
        exact List.getElem?_cons_zero

/-- Every state reached from the initial one has a buffer of `BUF_SIZE` bytes that holds a
zero byte at an index of at most `BUF_SIZE - 1`. -/
theorem uart_read_task_inv (s : Shared) (l : ReaderLocals) (inputs : List CycleInput)
    (hbuf : s.uart_buffer.length = BUF_SIZE)
    (hz : ∃ k, k ≤ BUF_SIZE - 1 ∧ s.uart_buffer[k]? = some 0) :
    (uart_read_task s l inputs).1.uart_buffer.length = BUF_SIZE ∧
    ∃ k, k ≤ BUF_SIZE - 1 ∧ (uart_read_task s l inputs).1.uart_buffer[k]? = some 0 := by
  induction inputs generalizing s l with
  | nil => exact ⟨hbuf, hz⟩
  | cons inp rest ih =>
    simp only [uart_read_task]
    obtain ⟨a, b⟩ := uart_read_cycle_inv s l inp hbuf hz
    exact ih _ _ a b

theorem initShared_inv :
    initShared.uart_buffer.length = BUF_SIZE ∧
    ∃ k, k ≤ BUF_SIZE - 1 ∧ initShared.uart_buffer[k]? = some 0 :=
  ⟨List.length_replicate _ _, 0, Nat.zero_le _, by
    show (List.replicate BUF_SIZE 0)[0]? = some 0
    rw [List.getElem?_replicate]
    decide⟩

/-! ## Lemmas on the written indices -/

theorem range'_two (j n : Nat) : j :: (j + 1) :: List.range' (j + 2) n = List.range' j (n + 2) := by
  rw [List.range'_succ, List.range'_succ]

theorem range'_one (j n : Nat) : j :: List.range' (j + 1) n = List.range' j (n + 1) := by
  rw [List.range'_succ]

/-- The loop never moves `j` back, and the indices it writes are the consecutive ones from
its starting `j` up to, not including, its final `j`. -/
theorem escapeLoopWrites_eq (safe_data : List Nat) (r i j : Nat) (escaped_data : List Nat) :
    j ≤ (escapeLoop safe_data r i j escaped_data).1 ∧
    escapeLoopWrites safe_data r i j =
      List.range' j ((escapeLoop safe_data r i j escaped_data).1 - j) := by
  induction r generalizing i j escaped_data with
  | zero => simp [escapeLoop, escapeLoopWrites]
  | succ r ih =>
    by_cases hj : j < 400
    · simp only [escapeLoop, escapeLoopWrites, hj, if_true]
      split_ifs
      · obtain ⟨a, b⟩ := ih (i + 1) (j + 2) ((escaped_data.set j 92).set (j + 1) 34)
        refine ⟨by omega, ?_⟩
        rw [b, range'_two]
        congr 1
        omega
      · obtain ⟨a, b⟩ := ih (i + 1) (j + 2) ((escaped_data.set j 92).set (j + 1) 92)
        refine ⟨by omega, ?_⟩
        rw [b, range'_two]
        congr 1
        omega
      · obtain ⟨a, b⟩ := ih (i + 1) (j + 2) ((escaped_data.set j 92).set (j + 1) 110)
        refine ⟨by omega, ?_⟩
        rw [b, range'_two]
        congr 1
        omega
      · obtain ⟨a, b⟩ := ih (i + 1) (j + 2) ((escaped_data.set j 92).set (j + 1) 114)
        refine ⟨by omega, ?_⟩
        rw [b, range'_two]
        congr 1
        omega
      · obtain ⟨a, b⟩ := ih (i + 1) (j + 1) (escaped_data.set j (safe_data.getD i 0))
        refine ⟨by omega, ?_⟩
        rw [b, range'_one]
        congr 1
        omega
      · exact ih (i + 1) j escaped_data
    · simp [escapeLoop, escapeLoopWrites, hj]

/-- On a window of at most 200 bytes the final `j` is the length of the sanitised window, at
most 400. -/
theorem escapeLoop_final (w tail escaped_data : List Nat) (hw : w.length ≤ 200)
    (he : escaped_data.length = 401) :
    (escapeLoop (w ++ tail) w.length 0 0 escaped_data).1 = (sanitize w).length ∧
    (sanitize w).length ≤ 400 := by
  obtain ⟨_, b, _⟩ := escapeLoop_spec (w ++ tail) w.length 0 0 escaped_data he (by omega)
    (by simp)
  have hl := sanitize_length_le w
  refine ⟨?_, by omega⟩
  rw [b]
  simp

/-! ## Lemmas on tokens -/

theorem escapeByte_isToken (c : Nat) (h : (escapeByte c).isEmpty = false) :
    isToken (escapeByte c) = true := by
  by_cases h1 : c = 34
  · subst h1; decide
  by_cases h2 : c = 92
  · subst h2; decide
  by_cases h3 : c = 10
  · subst h3; decide
  by_cases h4 : c = 13
  · subst h4; decide
  by_cases h5 : 32 ≤ c ∧ c ≤ 126
  · have he : escapeByte c = [c] := by simp [escapeByte, h1, h2, h3, h4, h5]
    rw [he]
    simp [isToken, isVerbatim, h1, h2, h5.1, h5.2]
  · have he : escapeByte c = [] := by simp [escapeByte, h1, h2, h3, h4, h5]
    rw [he] at h
    simp at h

theorem escapeTokens_isToken (w : List Nat) (t : List Nat) (ht : t ∈ escapeTokens w) :
    isToken t = true := by
  simp only [escapeTokens, List.mem_filter, List.mem_map] at ht
  obtain ⟨⟨c, _, rfl⟩, hne⟩ := ht
  exact escapeByte_isToken c (by simpa using hne)

theorem sanitize_eq_flatten (w : List Nat) : sanitize w = (escapeTokens w).flatten := by
  induction w with
  | nil => rfl
  | cons c w ih =>
    rw [sanitize_cons, ih]
    simp only [escapeTokens, List.map_cons, List.filter_cons]
    split_ifs with h
    · rfl
    · have he : escapeByte c = [] := by
        cases hc : escapeByte c with
        | nil => rfl
        | cons x xs => rw [hc] at h; simp at h
      rw [he]
      rfl

/-- The sanitised form of a window ends with an even number of backslashes. -/
theorem sanitize_trailing_even (w : List Nat) : trailingBackslashes (sanitize w) % 2 = 0 := by
  induction w using List.reverseRecOn with
  | nil => rfl
  | append_singleton w c ih =>
    rw [sanitize_append]
    have hs : sanitize [c] = escapeByte c := by simp [sanitize]
    rw [hs]
    by_cases h1 : c = 34
    · subst h1; simp [trailingBackslashes, escapeByte]
    by_cases h2 : c = 92
    · subst h2
      simp only [trailingBackslashes] at ih ⊢
      simp [escapeByte]
      omega
    by_cases h3 : c = 10
    · subst h3; simp [trailingBackslashes, escapeByte]
    by_cases h4 : c = 13
    · subst h4; simp [trailingBackslashes, escapeByte]
    by_cases h5 : 32 ≤ c ∧ c ≤ 126
    · simp [trailingBackslashes, escapeByte, h1, h2, h3, h4, h5]
    · simpa [escapeByte, h1, h2, h3, h4, h5] using ih

/-! ## Lemmas on the shape of the data body -/

theorem noUnescapedQuote_sanitize (w : List Nat) : noUnescapedQuote (sanitize w) = true := by
  induction w with
  | nil => rfl
  | cons c w ih =>
    rw [sanitize_cons]
    by_cases h1 : c = 34
    · subst h1; simpa [escapeByte, noUnescapedQuote] using ih
    by_cases h2 : c = 92
    · subst h2; simpa [escapeByte, noUnescapedQuote] using ih
    by_cases h3 : c = 10
    · subst h3; simpa [escapeByte, noUnescapedQuote] using ih
    by_cases h4 : c = 13
    · subst h4; simpa [escapeByte, noUnescapedQuote] using ih
    by_cases h5 : 32 ≤ c ∧ c ≤ 126
    · have he : escapeByte c = [c] := by simp [escapeByte, h1, h2, h3, h4, h5]
      rw [he]
      show noUnescapedQuote (c :: sanitize w) = true
      rw [noUnescapedQuote.eq_def]
      simp only [if_neg h2, if_neg h1]
      exact ih
    · simpa [escapeByte, h1, h2, h3, h4, h5] using ih

/-- The formatted text of the data endpoint has at most 481 bytes whenever the escaped text
has at most 400 bytes and the three counters are `size_t` values. -/
theorem dataFormat_length_le (f : DataFields) (hd : f.data.length ≤ 400)
    (hl : f.length < SIZE_T_MOD) (hb : f.buffered < SIZE_T_MOD)
    (ht : f.total_received < SIZE_T_MOD) : (dataFormat f).length ≤ 481 := by
  have h1 := fmtDec_length _ hl
  have h2 := fmtDec_length _ hb
  have h3 := fmtDec_length _ ht
  have e1 : (lit "\x7b\"data\":\"").length = 9 := by decide
  have e2 : (lit "\",\"length\":").length = 11 := by decide
  have e3 : (lit ",\"buffered\":").length = 12 := by decide
  have e4 : (lit ",\"total_received\":").length = 18 := by decide
  have e5 : (lit "\x7d").length = 1 := by decide
  simp only [dataFormat, List.length_append, e1, e2, e3, e4, e5]
  omega

/-- The visible chunk after a read of at least one byte: the bytes read, up to their first
zero byte. -/
theorem cstr_after_read (s : Shared) (l : ReaderLocals) (pending : Nat) (data : List Nat)
    (hbuf : s.uart_buffer.length = BUF_SIZE) (h1 : 1 ≤ data.length) (h2 : data.length ≤ 1023) :
    cstr (uart_read_cycle s l ⟨pending, UartRead.bytes data⟩).1.uart_buffer = cstr data := by
  have htake : data.take (BUF_SIZE - 1) = data :=
    List.take_of_length_le (by simpa [BUF_SIZE, UART_BUF_SIZE] using h2)
  have hne : data ≠ [] := by
    intro h; rw [h] at h1; simp at h1
  have hcyc := uart_read_cycle_pos s l pending data hbuf (by rw [htake]; exact hne)
  rw [htake] at hcyc
  rw [hcyc]
  exact cstr_append_zero_cstr data _

/-! ## Lemmas on the terminator write of line 224 -/

/-- The write `uart_buffer[len] = 0` of a cycle with a positive read, on a buffer of
`BUF_SIZE` bytes: its index `len` is at most 1023 and inside the array, the buffer after the
cycle is the buffer left by the driver with that one byte set, and the array keeps its
size. -/
theorem uart_read_cycle_terminator (s : Shared) (l : ReaderLocals) (inp : CycleInput)
    (hbuf : s.uart_buffer.length = BUF_SIZE)
    (hpos : 0 < (uart_read_bytes inp.rx s.uart_buffer (BUF_SIZE - 1)).1) :
    (uart_read_bytes inp.rx s.uart_buffer (BUF_SIZE - 1)).1.toNat ≤ 1023 ∧
    (uart_read_bytes inp.rx s.uart_buffer (BUF_SIZE - 1)).1.toNat <
      (uart_read_bytes inp.rx s.uart_buffer (BUF_SIZE - 1)).2.length ∧
    (uart_read_cycle s l inp).1.uart_buffer =
      (uart_read_bytes inp.rx s.uart_buffer (BUF_SIZE - 1)).2.set
        (uart_read_bytes inp.rx s.uart_buffer (BUF_SIZE - 1)).1.toNat 0 ∧
    (uart_read_cycle s l inp).1.uart_buffer[
      (uart_read_bytes inp.rx s.uart_buffer (BUF_SIZE - 1)).1.toNat]? = some 0 ∧
    (uart_read_cycle s l inp).1.uart_buffer.length = 1024 := by
  have heq : (uart_read_cycle s l inp).1.uart_buffer =
      (uart_read_bytes inp.rx s.uart_buffer (BUF_SIZE - 1)).2.set
        (uart_read_bytes inp.rx s.uart_buffer (BUF_SIZE - 1)).1.toNat 0 := by
    simp only [uart_read_cycle, gt_iff_lt, hpos, if_true]
  have hb : s.uart_buffer.length = 1024 := hbuf
  have hidx : (uart_read_bytes inp.rx s.uart_buffer (BUF_SIZE - 1)).1.toNat ≤ 1023 ∧
      (uart_read_bytes inp.rx s.uart_buffer (BUF_SIZE - 1)).2.length = 1024 := by
    obtain ⟨n, rx⟩ := inp
    cases rx with
    | error code =>
      simp only [uart_read_bytes] at hpos
      omega
    | bytes d =>
      have hle : (d.take (BUF_SIZE - 1)).length ≤ 1023 := by
        rw [List.length_take]; exact Nat.min_le_left _ _
      simp only [uart_read_bytes, Int.toNat_ofNat, List.length_append, List.length_drop, hb]
      omega
  refine ⟨hidx.1, by omega, heq, ?_, ?_⟩
  · rw [heq]
    exact List.getElem?_set_self (by omega)
  · rw [heq, List.length_set]
    exact hidx.2

/-- The buffer after a read of 1 to 1023 bytes over a buffer of `BUF_SIZE` bytes: the bytes
read come first and the zero byte written by line 224 follows them. -/
theorem uart_read_cycle_content (s : Shared) (l : ReaderLocals) (pending : Nat)
    (data : List Nat) (hbuf : s.uart_buffer.length = BUF_SIZE) (h1 : 1 ≤ data.length)
    (h2 : data.length ≤ 1023) :
    (uart_read_cycle s l ⟨pending, UartRead.bytes data⟩).1.uart_buffer.take data.length = data ∧
    (uart_read_cycle s l ⟨pending, UartRead.bytes data⟩).1.uart_buffer[data.length]? = some 0 := by
  have htake : data.take (BUF_SIZE - 1) = data :=
    List.take_of_length_le (by simpa [BUF_SIZE, UART_BUF_SIZE] using h2)
  have hne : data ≠ [] := by
    intro h; rw [h] at h1; simp at h1
  have hcyc := uart_read_cycle_pos s l pending data hbuf (by rw [htake]; exact hne)
  rw [htake] at hcyc
  rw [hcyc]
  refine ⟨List.take_left' rfl, ?_⟩
  rw [List.getElem?_append_right (le_refl _), Nat.sub_self]
  exact List.getElem?_cons_zero

/-! ## The claims -/

/-- C1: for every window of at most 200 bytes, the escaping loop of `api_data_get_handler`
leaves in `escaped_data` exactly the per-byte images in input order: 0x22 gives backslash
quote, 0x5C gives backslash backslash, 0x0A gives backslash `n`, 0x0D gives backslash `r`,
any other byte of [32,126] is kept, any other byte gives nothing; so the output length is
the number of verbatim bytes plus twice the number of escaped bytes. -/
theorem C1_escape_loop_per_byte (w tail escaped_data : List Nat) (hw : w.length ≤ 200)
    (he : escaped_data.length = 401) :
    escapeWindow (w ++ tail) w.length escaped_data = w.flatMap escapeByte ∧
    (escapeByte 34 = [92, 34] ∧ escapeByte 92 = [92, 92] ∧ escapeByte 10 = [92, 110] ∧
      escapeByte 13 = [92, 114]) ∧
    (∀ c, 32 ≤ c → c ≤ 126 → c ≠ 34 → c ≠ 92 → escapeByte c = [c]) ∧
    (∀ c, (c < 32 ∨ 126 < c) → c ≠ 10 → c ≠ 13 → escapeByte c = []) ∧
    (escapeWindow (w ++ tail) w.length escaped_data).length =
      w.countP isVerbatim + 2 * w.countP isEscaped := by
  have hmain : escapeWindow (w ++ tail) w.length escaped_data = sanitize w := by
    rw [escapeWindow_eq _ _ _ he hw (by simp)]
    simp
  refine ⟨hmain, ⟨by decide, by decide, by decide, by decide⟩, ?_, ?_, ?_⟩
  · intro c h1 h2 h3 h4
    have h5 : c ≠ 10 := by omega
    have h6 : c ≠ 13 := by omega
    simp [escapeByte, h1, h2, h3, h4, h5, h6]
  · intro c h1 h2 h3
    have h4 : c ≠ 34 := by omega
    have h5 : c ≠ 92 := by omega
    have h6 : ¬ (32 ≤ c ∧ c ≤ 126) := by omega
    simp [escapeByte, h2, h3, h4, h5, h6]
  · rw [hmain, sanitize_length]

/-- C1 at the nine bytes a " b \ c LF d CR e: the thirteen characters a\"b\\c\nd\re. -/
theorem C1_escape_loop_witness :
    escapeWindow ([97, 34, 98, 92, 99, 10, 100, 13, 101] ++ [0]) 9 (List.replicate 401 0) =
      [97, 92, 34, 98, 92, 92, 99, 92, 110, 100, 92, 114, 101] ∧
    (escapeWindow ([97, 34, 98, 92, 99, 10, 100, 13, 101] ++ [0]) 9
      (List.replicate 401 0)).length = 13 := by
  have h := C1_escape_loop_per_byte [97, 34, 98, 92, 99, 10, 100, 13, 101] [0]
    (List.replicate 401 0) (by decide) (List.length_replicate _ _)
  refine ⟨h.1.trans (by decide), h.2.2.2.2.trans (by decide)⟩

/-- C2, the claim as stated fails: a read of 300 bytes whose second byte is zero is served as
the one character `A` with `length` 1, not as the sanitised first 200 bytes with `length` 300. -/
theorem C2_zero_byte_counterexample :
    (apiDataFields
      (uart_read_cycle initShared initLocals
        ⟨300, UartRead.bytes (65 :: 0 :: List.replicate 298 66)⟩).1
      0 (List.replicate 201 0) (List.replicate 401 0)).data = [65] ∧
    (apiDataFields
      (uart_read_cycle initShared initLocals
        ⟨300, UartRead.bytes (65 :: 0 :: List.replicate 298 66)⟩).1
      0 (List.replicate 201 0) (List.replicate 401 0)).length = 1 ∧
    sanitize ((65 :: 0 :: List.replicate 298 66).take 200) ≠ [65] ∧
    (65 :: 0 :: List.replicate 298 66).length = 300 := by
  have hlen : (65 :: 0 :: List.replicate 298 66).length = 300 := by
    simp only [List.length_cons, List.length_replicate]
  have htake : (65 :: 0 :: List.replicate 298 66).take (BUF_SIZE - 1) =
      65 :: 0 :: List.replicate 298 66 := by
    apply List.take_of_length_le
    rw [hlen]
    decide
  have hcyc := uart_read_cycle_pos initShared initLocals 300 (65 :: 0 :: List.replicate 298 66)
    (List.length_replicate _ _) (by rw [htake]; exact List.cons_ne_nil _ _)
  rw [htake] at hcyc
  have hc : cstr (uart_read_cycle initShared initLocals
      ⟨300, UartRead.bytes (65 :: 0 :: List.replicate 298 66)⟩).1.uart_buffer = [65] := by
    rw [hcyc]
    rfl
  refine ⟨?_, ?_, ?_, hlen⟩
  · rw [apiDataFields_data _ _ _ _ (List.length_replicate _ _) (List.length_replicate _ _), hc]
    decide
  · simp only [apiDataFields, strlen, hc, List.length_singleton]
  · decide

/-- The served fields after a read of bytes none of which is zero: the sanitised form of the
first 200 bytes of the read and the full count. -/
theorem served_after_read (s : Shared) (l : ReaderLocals) (pending buffered : Nat)
    (chunk safe_data escaped_data : List Nat) (hbuf : s.uart_buffer.length = BUF_SIZE)
    (h1 : 1 ≤ chunk.length) (h2 : chunk.length ≤ 1023) (hnz : ∀ b ∈ chunk, b ≠ 0)
    (hs : safe_data.length = 201) (he : escaped_data.length = 401) :
    (apiDataFields (uart_read_cycle s l ⟨pending, UartRead.bytes chunk⟩).1 buffered safe_data
      escaped_data).data = sanitize (chunk.take 200) ∧
    (apiDataFields (uart_read_cycle s l ⟨pending, UartRead.bytes chunk⟩).1 buffered safe_data
      escaped_data).length = chunk.length := by
  have htake : chunk.take (BUF_SIZE - 1) = chunk :=
    List.take_of_length_le (by simpa [BUF_SIZE, UART_BUF_SIZE] using h2)
  have hne : chunk ≠ [] := by
    intro h; rw [h] at h1; simp at h1
  have hcyc := uart_read_cycle_pos s l pending chunk hbuf (by rw [htake]; exact hne)
  rw [htake] at hcyc
  have hc : cstr (uart_read_cycle s l ⟨pending, UartRead.bytes chunk⟩).1.uart_buffer = chunk := by
    rw [hcyc]
    exact cstr_append_zero chunk _ hnz
  refine ⟨?_, ?_⟩
  · rw [apiDataFields_data _ _ _ _ hs he, hc]
  · simp only [apiDataFields, strlen, hc]

/-- The body served after a read of bytes none of which is zero. -/
theorem body_after_read (s : Shared) (l : ReaderLocals) (pending buffered : Nat)
    (chunk safe_data escaped_data : List Nat) (hbuf : s.uart_buffer.length = BUF_SIZE)
    (h1 : 1 ≤ chunk.length) (h2 : chunk.length ≤ 1023) (hnz : ∀ b ∈ chunk, b ≠ 0)
    (hb : buffered < SIZE_T_MOD) (hs : safe_data.length = 201)
    (he : escaped_data.length = 401) :
    api_data_get_handler (uart_read_cycle s l ⟨pending, UartRead.bytes chunk⟩).1 buffered
      safe_data escaped_data =
    lit "\x7b\"data\":\"" ++ sanitize (chunk.take 200) ++ lit "\",\"length\":" ++
      fmtDec chunk.length ++ lit ",\"buffered\":" ++ fmtDec buffered ++
      lit ",\"total_received\":" ++
      fmtDec ((s.uart_total_received + chunk.length) % SIZE_T_MOD) ++ lit "\x7d" := by
  have htake : chunk.take (BUF_SIZE - 1) = chunk :=
    List.take_of_length_le (by simpa [BUF_SIZE, UART_BUF_SIZE] using h2)
  have hne : chunk ≠ [] := by
    intro h; rw [h] at h1; simp at h1
  have hcyc := uart_read_cycle_pos s l pending chunk hbuf (by rw [htake]; exact hne)
  rw [htake] at hcyc
  have hf := served_after_read s l pending buffered chunk safe_data escaped_data hbuf h1 h2 hnz
    hs he
  have hlen' : (uart_read_cycle s l ⟨pending, UartRead.bytes chunk⟩).1.uart_buffer.length =
      BUF_SIZE := by
    rw [hcyc]
    simp only [List.length_append, List.length_cons, List.length_drop, hbuf, BUF_SIZE,
      UART_BUF_SIZE]
    omega
  have htot : (uart_read_cycle s l ⟨pending, UartRead.bytes chunk⟩).1.uart_total_received =
      (s.uart_total_received + chunk.length) % SIZE_T_MOD := by
    rw [hcyc]
  rw [api_data_get_handler_eq _ _ _ _ hlen'
    (by rw [htot]; exact Nat.mod_lt _ (by decide)) hb hs he]
  simp only [dataFormat, hf.1, hf.2]
  simp only [apiDataFields, htot]

/-- C2 as amended: for every read of n bytes, 200 < n <= 1023, none of which is zero, the
data endpoint served afterwards returns as `data` the sanitised form of the first 200 bytes
of the read and as `length` the full count n. -/
theorem C2_long_read_truncated (s : Shared) (l : ReaderLocals) (pending buffered : Nat)
    (chunk safe_data escaped_data : List Nat) (hbuf : s.uart_buffer.length = BUF_SIZE)
    (h1 : 200 < chunk.length) (h2 : chunk.length ≤ 1023) (hnz : ∀ b ∈ chunk, b ≠ 0)
    (hb : buffered < SIZE_T_MOD) (hs : safe_data.length = 201)
    (he : escaped_data.length = 401) :
    (apiDataFields (uart_read_cycle s l ⟨pending, UartRead.bytes chunk⟩).1 buffered safe_data
      escaped_data).data = sanitize (chunk.take 200) ∧
    (apiDataFields (uart_read_cycle s l ⟨pending, UartRead.bytes chunk⟩).1 buffered safe_data
      escaped_data).length = chunk.length ∧
    api_data_get_handler (uart_read_cycle s l ⟨pending, UartRead.bytes chunk⟩).1 buffered
      safe_data escaped_data =
    lit "\x7b\"data\":\"" ++ sanitize (chunk.take 200) ++ lit "\",\"length\":" ++
      fmtDec chunk.length ++ lit ",\"buffered\":" ++ fmtDec buffered ++
      lit ",\"total_received\":" ++
      fmtDec ((s.uart_total_received + chunk.length) % SIZE_T_MOD) ++ lit "\x7d" := by
  have hf := served_after_read s l pending buffered chunk safe_data escaped_data hbuf
    (by omega) h2 hnz hs he
  exact ⟨hf.1, hf.2, body_after_read s l pending buffered chunk safe_data escaped_data hbuf
    (by omega) h2 hnz hb hs he⟩

/-- C2 as amended, at a read of 300 bytes `B` into the initial buffer: `data` is 200 bytes `B`
and `length` is 300. -/
theorem C2_long_read_witness :
    (apiDataFields (uart_read_cycle initShared initLocals
      ⟨300, UartRead.bytes (List.replicate 300 66)⟩).1 0 (List.replicate 201 0)
      (List.replicate 401 0)).data = List.replicate 200 66 ∧
    (apiDataFields (uart_read_cycle initShared initLocals
      ⟨300, UartRead.bytes (List.replicate 300 66)⟩).1 0 (List.replicate 201 0)
      (List.replicate 401 0)).length = 300 := by
  have h := C2_long_read_truncated initShared initLocals 300 0 (List.replicate 300 66)
    (List.replicate 201 0) (List.replicate 401 0) (List.length_replicate _ _)
    (by rw [List.length_replicate]; decide) (by rw [List.length_replicate]; decide)
    (fun b hb => by rw [List.eq_of_mem_replicate hb]; decide) (by decide)
    (List.length_replicate _ _) (List.length_replicate _ _)
  refine ⟨h.1.trans ?_, h.2.1.trans (List.length_replicate _ _)⟩
  rw [List.take_replicate]
  exact sanitize_of_verbatim _ (fun b hb => by rw [List.eq_of_mem_replicate hb]; decide)

/-- C3: for every chunk of n bytes, 1 <= n <= 200, without a zero byte, after the reader task
stores it over any earlier buffer content the data endpoint returns `data` equal to the
sanitised form of all n bytes and `length` equal to n. -/
theorem C3_short_chunk_served (s : Shared) (l : ReaderLocals) (pending buffered : Nat)
    (chunk safe_data escaped_data : List Nat) (hbuf : s.uart_buffer.length = BUF_SIZE)
    (h1 : 1 ≤ chunk.length) (h2 : chunk.length ≤ 200) (hnz : ∀ b ∈ chunk, b ≠ 0)
    (hb : buffered < SIZE_T_MOD) (hs : safe_data.length = 201)
    (he : escaped_data.length = 401) :
    (apiDataFields (uart_read_cycle s l ⟨pending, UartRead.bytes chunk⟩).1 buffered safe_data
      escaped_data).data = sanitize chunk ∧
    (apiDataFields (uart_read_cycle s l ⟨pending, UartRead.bytes chunk⟩).1 buffered safe_data
      escaped_data).length = chunk.length ∧
    api_data_get_handler (uart_read_cycle s l ⟨pending, UartRead.bytes chunk⟩).1 buffered
      safe_data escaped_data =
    lit "\x7b\"data\":\"" ++ sanitize chunk ++ lit "\",\"length\":" ++
      fmtDec chunk.length ++ lit ",\"buffered\":" ++ fmtDec buffered ++
      lit ",\"total_received\":" ++
      fmtDec ((s.uart_total_received + chunk.length) % SIZE_T_MOD) ++ lit "\x7d" := by
  have hf := served_after_read s l pending buffered chunk safe_data escaped_data hbuf
    h1 (by omega) hnz hs he
  have hbody := body_after_read s l pending buffered chunk safe_data escaped_data hbuf
    h1 (by omega) hnz hb hs he
  rw [List.take_of_length_le h2] at hf hbody
  exact ⟨hf.1, hf.2, hbody⟩

/-- C3 at the six bytes T e s t CR LF read into the initial buffer: `data` is the eight
characters Test\r\n and `length` is 6. -/
theorem C3_short_chunk_witness :
    (apiDataFields (uart_read_cycle initShared initLocals
      ⟨6, UartRead.bytes [84, 101, 115, 116, 13, 10]⟩).1 0 (List.replicate 201 0)
      (List.replicate 401 0)).data = [84, 101, 115, 116, 92, 114, 92, 110] ∧
    (apiDataFields (uart_read_cycle initShared initLocals
      ⟨6, UartRead.bytes [84, 101, 115, 116, 13, 10]⟩).1 0 (List.replicate 201 0)
      (List.replicate 401 0)).length = 6 ∧
    api_data_get_handler (uart_read_cycle initShared initLocals
      ⟨6, UartRead.bytes [84, 101, 115, 116, 13, 10]⟩).1 0 (List.replicate 201 0)
      (List.replicate 401 0) =
      lit "\x7b\"data\":\"Test\\r\\n\",\"length\":6,\"buffered\":0,\"total_received\":6\x7d" := by
  have h := C3_short_chunk_served initShared initLocals 6 0 [84, 101, 115, 116, 13, 10]
    (List.replicate 201 0) (List.replicate 401 0) (List.length_replicate _ _)
    (by decide) (by decide) (by decide) (by decide)
    (List.length_replicate _ _) (List.length_replicate _ _)
  exact ⟨h.1.trans (by decide), h.2.1.trans (by decide), h.2.2.trans (by decide)⟩

/-- C4: a reader cycle whose read returns 0 or a negative value leaves `uart_buffer` and
`uart_total_received` exactly as they were; a cycle that changes either of them had a
positive read. -/
theorem C4_nonpositive_read_keeps_state (s : Shared) (l : ReaderLocals) (inp : CycleInput) :
    ((uart_read_bytes inp.rx s.uart_buffer (BUF_SIZE - 1)).1 ≤ 0 →
      (uart_read_cycle s l inp).1.uart_buffer = s.uart_buffer ∧
      (uart_read_cycle s l inp).1.uart_total_received = s.uart_total_received) ∧
    (((uart_read_cycle s l inp).1.uart_buffer ≠ s.uart_buffer ∨
      (uart_read_cycle s l inp).1.uart_total_received ≠ s.uart_total_received) →
      0 < (uart_read_bytes inp.rx s.uart_buffer (BUF_SIZE - 1)).1) := by
  constructor
  · intro h
    rw [uart_read_cycle_nonpos s l inp h]
    exact ⟨rfl, rfl⟩
  · intro h
    by_contra hn
    rw [uart_read_cycle_nonpos s l inp (by omega)] at h
    rcases h with h | h <;> exact h rfl

/-- C4 at a failed read (return value -1) and at an empty read, on a buffer holding `Hi`. -/
theorem C4_nonpositive_read_witness :
    (uart_read_bytes (UartRead.error 0) [72, 105, 0, 7] (BUF_SIZE - 1)).1 = -1 ∧
    (uart_read_cycle ⟨[72, 105, 0, 7], 2⟩ initLocals ⟨0, UartRead.error 0⟩).1 =
      ⟨[72, 105, 0, 7], 2⟩ ∧
    (uart_read_cycle ⟨[72, 105, 0, 7], 2⟩ initLocals ⟨0, UartRead.bytes []⟩).1 =
      ⟨[72, 105, 0, 7], 2⟩ := by
  have h1 := (C4_nonpositive_read_keeps_state ⟨[72, 105, 0, 7], 2⟩ initLocals
    ⟨0, UartRead.error 0⟩).1 (by decide)
  have h2 := (C4_nonpositive_read_keeps_state ⟨[72, 105, 0, 7], 2⟩ initLocals
    ⟨0, UartRead.bytes []⟩).1 (by decide)
  refine ⟨by decide, ?_, ?_⟩
  · exact Shared.ext h1.1 h1.2
  · exact Shared.ext h2.1 h2.2

/-- C5, the claim as stated fails: after 4198404 reads of 1023 bytes from process start the
counter is 4294967292, and the next read of 1023 bytes takes it down to 1019. -/
theorem C5_counter_wraps_counterexample :
    (uart_read_task initShared initLocals
      (List.replicate 4198404 ⟨0, UartRead.bytes (List.replicate 1023 65)⟩)).1.uart_total_received
      = 4294967292 ∧
    (uart_read_task initShared initLocals
      (List.replicate 4198405 ⟨0, UartRead.bytes (List.replicate 1023 65)⟩)).1.uart_total_received
      = 1019 := by
  have hc : readCount ⟨0, UartRead.bytes (List.replicate 1023 65)⟩ = 1023 := by
    simp only [readCount, List.length_take, List.length_replicate]
    decide
  constructor
  · rw [uart_read_task_replicate_total _ _ _ _ (by rw [hc]; decide) (by decide), hc]
    decide
  · rw [uart_read_task_replicate_total _ _ _ _ (by rw [hc]; decide) (by decide), hc]
    decide

/-- C5 as amended: `uart_total_received` is a 32-bit `size_t` and its addition wraps; across
every reader cycle in which the old value plus the number of bytes read stays below `2 ^ 32`
the new value is that sum, hence greater than or equal to the old value. -/
theorem C5_counter_monotone_below_wrap (s : Shared) (l : ReaderLocals) (inp : CycleInput)
    (h : s.uart_total_received + readCount inp < SIZE_T_MOD) :
    (uart_read_cycle s l inp).1.uart_total_received = s.uart_total_received + readCount inp ∧
    s.uart_total_received ≤ (uart_read_cycle s l inp).1.uart_total_received := by
  have hstep := uart_read_cycle_total s l inp
  have heq : (uart_read_cycle s l inp).1.uart_total_received =
      s.uart_total_received + readCount inp := by
    rw [hstep]
    split_ifs with h0
    · rw [h0]; rfl
    · exact Nat.mod_eq_of_lt h
  exact ⟨heq, by rw [heq]; exact Nat.le_add_right _ _⟩

/-- C5 as amended, at a read of three bytes with the counter at 10. -/
theorem C5_counter_monotone_witness :
    (uart_read_cycle ⟨List.replicate 1024 0, 10⟩ initLocals
      ⟨3, UartRead.bytes [79, 75, 10]⟩).1.uart_total_received = 13 ∧
    10 ≤ (uart_read_cycle ⟨List.replicate 1024 0, 10⟩ initLocals
      ⟨3, UartRead.bytes [79, 75, 10]⟩).1.uart_total_received :=
  C5_counter_monotone_below_wrap ⟨List.replicate 1024 0, 10⟩ initLocals
    ⟨3, UartRead.bytes [79, 75, 10]⟩ (by decide)

/-- C6, the claim as stated fails: the loop turns the one byte `"` into backslash quote, and
turns that output into backslash backslash backslash quote. -/
theorem C6_not_idempotent_counterexample :
    escapeWindow ([34] ++ [0]) 1 (List.replicate 401 0) = [92, 34] ∧
    escapeWindow ([92, 34] ++ [0]) 2 (List.replicate 401 0) = [92, 92, 92, 34] ∧
    escapeWindow ([92, 34] ++ [0]) 2 (List.replicate 401 0) ≠ [92, 34] := by
  have h1 : escapeWindow ([34] ++ [0]) 1 (List.replicate 401 0) = [92, 34] := by
    rw [escapeWindow_eq _ _ _ (List.length_replicate _ _) (by decide) (by decide)]
    decide
  have h2 : escapeWindow ([92, 34] ++ [0]) 2 (List.replicate 401 0) = [92, 92, 92, 34] := by
    rw [escapeWindow_eq _ _ _ (List.length_replicate _ _) (by decide) (by decide)]
    decide
  exact ⟨h1, h2, by rw [h2]; decide⟩

/-- C6 as amended: for every output y of the escaping loop on a window of at most 200 bytes,
if y contains no backslash (no escape pair) then applying the loop to y yields y again. -/
theorem C6_idempotent_without_escapes (w tail tail2 escaped_data escaped_data2 : List Nat)
    (hw : w.length ≤ 200) (he : escaped_data.length = 401) (he2 : escaped_data2.length = 401)
    (hns : 92 ∉ escapeWindow (w ++ tail) w.length escaped_data) :
    escapeWindow (escapeWindow (w ++ tail) w.length escaped_data ++ tail2)
      (escapeWindow (w ++ tail) w.length escaped_data).length escaped_data2 =
      escapeWindow (w ++ tail) w.length escaped_data := by
  have hy : escapeWindow (w ++ tail) w.length escaped_data = sanitize w := by
    rw [escapeWindow_eq _ _ _ he hw (by simp)]
    simp
  rw [hy] at hns ⊢
  obtain ⟨hlen, hverb⟩ := sanitize_no_backslash w hns
  rw [escapeWindow_eq _ _ _ he2 (by omega) (by simp)]
  simp only [List.take_left']
  exact sanitize_of_verbatim _ hverb

/-- C6 as amended, at the window `Hi` followed by a control byte: the output `Hi` is a fixed
point of the loop. -/
theorem C6_idempotent_witness :
    escapeWindow ([72, 105, 7] ++ [0]) 3 (List.replicate 401 0) = [72, 105] ∧
    escapeWindow ([72, 105] ++ [0]) 2 (List.replicate 401 0) = [72, 105] := by
  have hy : escapeWindow ([72, 105, 7] ++ [0]) 3 (List.replicate 401 0) = [72, 105] := by
    rw [escapeWindow_eq _ _ _ (List.length_replicate _ _) (by decide) (by decide)]
    decide
  have h := C6_idempotent_without_escapes [72, 105, 7] [0] [0] (List.replicate 401 0)
    (List.replicate 401 0) (by decide) (List.length_replicate _ _) (List.length_replicate _ _)
    (by
      show 92 ∉ escapeWindow ([72, 105, 7] ++ [0]) 3 (List.replicate 401 0)
      rw [hy]; decide)
  have hy2 : escapeWindow ([72, 105, 7] ++ [0]) [72, 105, 7].length (List.replicate 401 0) =
      [72, 105] := hy
  rw [hy2] at h
  exact ⟨hy, h⟩

/-- C7: if every read of every reader cycle since process start returned 0 or a negative
value, the status endpoint body is exactly
`{"uart_active":true,"rx_pin":1,"tx_pin":0,"baud_rate":115200,"buffered_bytes":P,
"total_received":0,"buffer_size":1024}` with P the decimal pending count of the driver. -/
theorem C7_idle_status_body (inputs : List CycleInput) (pending : Nat)
    (hidle : ∀ inp ∈ inputs, ∀ buf, (uart_read_bytes inp.rx buf (BUF_SIZE - 1)).1 ≤ 0)
    (hp : pending < SIZE_T_MOD) :
    api_uart_status_handler (uart_read_task initShared initLocals inputs).1 pending =
      lit "\x7b\"uart_active\":true,\"rx_pin\":1,\"tx_pin\":0,\"baud_rate\":115200,\"buffered_bytes\":"
        ++ fmtDec pending ++ lit ",\"total_received\":0,\"buffer_size\":1024\x7d" ∧
    (uart_read_task initShared initLocals inputs).1.uart_total_received = 0 := by
  rw [uart_read_task_idle _ _ _ hidle]
  refine ⟨?_, rfl⟩
  have e1 : lit "\x7b\"uart_active\":true,\"rx_pin\":" ++ fmtDec UART_RX_PIN ++
      lit ",\"tx_pin\":" ++ fmtDec UART_TX_PIN ++
      lit ",\"baud_rate\":115200,\"buffered_bytes\":" =
      lit "\x7b\"uart_active\":true,\"rx_pin\":1,\"tx_pin\":0,\"baud_rate\":115200,\"buffered_bytes\":" := by
    decide
  have e2 : lit ",\"total_received\":" ++ (fmtDec initShared.uart_total_received ++
      (lit ",\"buffer_size\":" ++ (fmtDec BUF_SIZE ++ lit "\x7d"))) =
      lit ",\"total_received\":0,\"buffer_size\":1024\x7d" := by
    decide
  have l1 : (lit "\x7b\"uart_active\":true,\"rx_pin\":1,\"tx_pin\":0,\"baud_rate\":115200,\"buffered_bytes\":").length
      = 78 := by decide
  have l2 : (lit ",\"total_received\":0,\"buffer_size\":1024\x7d").length = 39 := by decide
  have z1 : ∀ b ∈ lit "\x7b\"uart_active\":true,\"rx_pin\":1,\"tx_pin\":0,\"baud_rate\":115200,\"buffered_bytes\":",
      b ≠ 0 := by decide
  have z2 : ∀ b ∈ lit ",\"total_received\":0,\"buffer_size\":1024\x7d", b ≠ 0 := by decide
  unfold api_uart_status_handler
  rw [e1]
  simp only [List.append_assoc]
  rw [e2, ← List.append_assoc]
  apply snprintf_fits
  · have := fmtDec_length _ hp
    simp only [List.length_append, l1, l2]
    omega
  · intro b hb
    rcases List.mem_append.mp hb with h | h
    · rcases List.mem_append.mp h with h | h
      · exact z1 b h
      · exact fmtDec_nonzero _ b h
    · exact z2 b h

/-- C7 at three idle cycles (timeout, failure, timeout) with five bytes pending in the
driver. -/
theorem C7_idle_status_witness :
    api_uart_status_handler (uart_read_task initShared initLocals
      [⟨0, UartRead.bytes []⟩, ⟨0, UartRead.error 0⟩, ⟨5, UartRead.bytes []⟩]).1 5 =
      lit "\x7b\"uart_active\":true,\"rx_pin\":1,\"tx_pin\":0,\"baud_rate\":115200,\"buffered_bytes\":5,\"total_received\":0,\"buffer_size\":1024\x7d" := by
  have h := C7_idle_status_body
    [⟨0, UartRead.bytes []⟩, ⟨0, UartRead.error 0⟩, ⟨5, UartRead.bytes []⟩] 5
    (by
      intro inp hinp buf
      simp only [List.mem_cons, List.mem_singleton, List.not_mem_nil, or_false] at hinp
      rcases hinp with h | h | h <;> subst h <;> simp [uart_read_bytes])
    (by decide)
  exact h.1.trans (by decide)

/-- C8, the code at a failed driver install: `init_uart` leaves after the failed call and
`app_main` goes on to bring up WiFi, create the three tasks and start the web server. -/
theorem C8_startup_goes_on_after_uart_failure :
    init_uart ⟨ESP_OK, ESP_OK, ESP_OK, ESP_FAIL, ESP_OK, ESP_OK, ESP_OK⟩ =
      [StartupStep.uart_driver_install] ∧
    app_main ⟨ESP_OK, ESP_OK, ESP_OK, ESP_FAIL, ESP_OK, ESP_OK, ESP_OK⟩ =
      [StartupStep.nvs_flash_init, StartupStep.uart_driver_install, StartupStep.init_wifi_ap,
       StartupStep.create_uart_read_task, StartupStep.create_uart_pin_monitor_task,
       StartupStep.create_uart_test_task, StartupStep.start_webserver] ∧
    app_main ⟨ESP_OK, ESP_OK, ESP_OK, ESP_OK, ESP_OK, ESP_OK, ESP_FAIL⟩ =
      [StartupStep.nvs_flash_init, StartupStep.uart_driver_install,
       StartupStep.uart_param_config, StartupStep.uart_set_pin, StartupStep.uart_flush,
       StartupStep.uart_write_test_message, StartupStep.init_wifi_ap, StartupStep.aborted] := by
  decide

/-- C10, the claim as stated fails: the 1023 bytes A, 0, B, ..., B read into the initial
buffer leave the terminator in slot 1023, but the length every accessor computes is 1, not
1023. -/
theorem C10_zero_byte_counterexample :
    (65 :: 0 :: List.replicate 1021 66).length = 1023 ∧
    strlen (uart_read_cycle initShared initLocals
      ⟨1023, UartRead.bytes (65 :: 0 :: List.replicate 1021 66)⟩).1.uart_buffer = 1 ∧
    (uart_read_cycle initShared initLocals
      ⟨1023, UartRead.bytes (65 :: 0 :: List.replicate 1021 66)⟩).1.uart_buffer[1023]? =
      some 0 := by
  have hlen : (65 :: 0 :: List.replicate 1021 66).length = 1023 := by
    simp only [List.length_cons, List.length_replicate]
  have hc := cstr_after_read initShared initLocals 1023 (65 :: 0 :: List.replicate 1021 66)
    (List.length_replicate _ _) (by rw [hlen]; decide) (by rw [hlen])
  have hz := (uart_read_cycle_content initShared initLocals 1023
    (65 :: 0 :: List.replicate 1021 66) (List.length_replicate _ _) (by rw [hlen]; decide)
    (by rw [hlen])).2
  rw [hlen] at hz
  refine ⟨hlen, ?_, hz⟩
  simp only [strlen, hc]
  rfl

/-- C10 as amended: every state reached from the zero-initialised buffer has a buffer of 1024
bytes holding a zero byte at an index of at most 1023, so the length every accessor computes
is at most 1023. On every buffer of 1024 bytes (every reached one is) a cycle with a positive
read writes its terminator at the index `len`, which is at most 1023 and inside the array,
right behind the bytes read; the computed length is then that of the read bytes up to their
first zero byte. A read of exactly 1023 bytes none of which is zero stores length 1023 with
the terminator in slot 1023. -/
theorem C10_length_invariant (inputs : List CycleInput) (s : Shared) (l : ReaderLocals)
    (inp : CycleInput) (pending : Nat) (data : List Nat) :
    ((uart_read_task initShared initLocals inputs).1.uart_buffer.length = 1024 ∧
      (∃ k, k ≤ 1023 ∧
        (uart_read_task initShared initLocals inputs).1.uart_buffer[k]? = some 0) ∧
      strlen (uart_read_task initShared initLocals inputs).1.uart_buffer ≤ 1023) ∧
    (s.uart_buffer.length = 1024 →
      0 < (uart_read_bytes inp.rx s.uart_buffer (BUF_SIZE - 1)).1 →
      (uart_read_bytes inp.rx s.uart_buffer (BUF_SIZE - 1)).1.toNat ≤ 1023 ∧
      (uart_read_bytes inp.rx s.uart_buffer (BUF_SIZE - 1)).1.toNat <
        (uart_read_bytes inp.rx s.uart_buffer (BUF_SIZE - 1)).2.length ∧
      (uart_read_cycle s l inp).1.uart_buffer =
        (uart_read_bytes inp.rx s.uart_buffer (BUF_SIZE - 1)).2.set
          (uart_read_bytes inp.rx s.uart_buffer (BUF_SIZE - 1)).1.toNat 0 ∧
      (uart_read_cycle s l inp).1.uart_buffer[
        (uart_read_bytes inp.rx s.uart_buffer (BUF_SIZE - 1)).1.toNat]? = some 0 ∧
      (uart_read_cycle s l inp).1.uart_buffer.length = 1024) ∧
    (s.uart_buffer.length = 1024 → 1 ≤ data.length → data.length ≤ 1023 →
      (uart_read_cycle s l ⟨pending, UartRead.bytes data⟩).1.uart_buffer.take data.length
        = data ∧
      (uart_read_cycle s l ⟨pending, UartRead.bytes data⟩).1.uart_buffer[data.length]?
        = some 0 ∧
      strlen (uart_read_cycle s l ⟨pending, UartRead.bytes data⟩).1.uart_buffer =
        strlen data ∧
      strlen data ≤ data.length) ∧
    (s.uart_buffer.length = 1024 → data.length = 1023 → (∀ b ∈ data, b ≠ 0) →
      strlen (uart_read_cycle s l ⟨pending, UartRead.bytes data⟩).1.uart_buffer = 1023 ∧
      (uart_read_cycle s l ⟨pending, UartRead.bytes data⟩).1.uart_buffer[1023]? = some 0 ∧
      (uart_read_cycle s l ⟨pending, UartRead.bytes data⟩).1.uart_buffer.take 1023 = data) := by
  obtain ⟨hlen, k, hk, hz⟩ := uart_read_task_inv initShared initLocals inputs
    initShared_inv.1 initShared_inv.2
  have hk' : k ≤ 1023 := hk
  refine ⟨⟨hlen, ⟨k, hk', hz⟩, le_trans (strlen_le_of_zero _ k hz) hk'⟩, ?_, ?_, ?_⟩
  · intro hbuf hpos
    exact uart_read_cycle_terminator s l inp hbuf hpos
  · intro hbuf h1 h2
    obtain ⟨a, b⟩ := uart_read_cycle_content s l pending data hbuf h1 h2
    refine ⟨a, b, ?_, strlen_le data⟩
    simp only [strlen, cstr_after_read s l pending data hbuf h1 h2]
  · intro hbuf hd hnz
    obtain ⟨a, b⟩ := uart_read_cycle_content s l pending data hbuf (by omega) (by omega)
    rw [hd] at a b
    refine ⟨?_, b, a⟩
    simp only [strlen, cstr_after_read s l pending data hbuf (by omega) (by omega)]
    rw [cstr_of_nonzero data hnz, hd]

/-- C10 as amended, in the state reached by one read of `Hi`: the computed length is at most
1023, a further read of `OK` writes its terminator at index 2 inside the array, and a read of
1023 bytes `A` stores length 1023 with the terminator in slot 1023. -/
theorem C10_length_invariant_witness :
    strlen (uart_read_task initShared initLocals
      [⟨2, UartRead.bytes [72, 105]⟩]).1.uart_buffer ≤ 1023 ∧
    (uart_read_cycle (uart_read_task initShared initLocals
      [⟨2, UartRead.bytes [72, 105]⟩]).1 initLocals
      ⟨2, UartRead.bytes [79, 75]⟩).1.uart_buffer[2]? = some 0 ∧
    strlen (uart_read_cycle (uart_read_task initShared initLocals
      [⟨2, UartRead.bytes [72, 105]⟩]).1 initLocals
      ⟨2, UartRead.bytes (List.replicate 1023 65)⟩).1.uart_buffer = 1023 ∧
    (uart_read_cycle (uart_read_task initShared initLocals
      [⟨2, UartRead.bytes [72, 105]⟩]).1 initLocals
      ⟨2, UartRead.bytes (List.replicate 1023 65)⟩).1.uart_buffer[1023]? = some 0 := by
  have h := C10_length_invariant [⟨2, UartRead.bytes [72, 105]⟩]
    (uart_read_task initShared initLocals [⟨2, UartRead.bytes [72, 105]⟩]).1 initLocals
    ⟨2, UartRead.bytes [79, 75]⟩ 2 (List.replicate 1023 65)
  have hbuf := h.1.1
  have h2 := h.2.1 hbuf (by simp [uart_read_bytes, BUF_SIZE, UART_BUF_SIZE])
  have h4 := h.2.2.2 hbuf (List.length_replicate _ _)
    (fun b hb => by rw [List.eq_of_mem_replicate hb]; decide)
  exact ⟨h.1.2.2, h2.2.2.2.1, h4.1, h4.2.1⟩

/-- C11: for every window of at most 200 bytes the indices of the 401-byte `escaped_data`
written by the loop and by the terminator write are exactly 0, 1, ..., j with j the output
length, all at most 400; the produced text is the concatenation of complete tokens (a
verbatim byte or a whole two-character escape), and it ends with an even number of
backslashes, so never with the first half of an escape pair. -/
theorem C11_no_overflow_no_split (w tail escaped_data : List Nat) (hw : w.length ≤ 200)
    (he : escaped_data.length = 401) :
    escapeWindowWrites (w ++ tail) w.length escaped_data =
      List.range ((escapeWindow (w ++ tail) w.length escaped_data).length + 1) ∧
    (∀ k ∈ escapeWindowWrites (w ++ tail) w.length escaped_data,
      k ≤ 400 ∧ k < escaped_data.length) ∧
    escapeWindow (w ++ tail) w.length escaped_data = (escapeTokens w).flatten ∧
    (∀ t ∈ escapeTokens w, isToken t = true) ∧
    trailingBackslashes (escapeWindow (w ++ tail) w.length escaped_data) % 2 = 0 := by
  have hy : escapeWindow (w ++ tail) w.length escaped_data = sanitize w := by
    rw [escapeWindow_eq _ _ _ he hw (by simp)]
    simp
  obtain ⟨hF, hF400⟩ := escapeLoop_final w tail escaped_data hw he
  obtain ⟨_, hW⟩ := escapeLoopWrites_eq (w ++ tail) w.length 0 0 escaped_data
  have hwr : escapeWindowWrites (w ++ tail) w.length escaped_data =
      List.range ((sanitize w).length + 1) := by
    simp only [escapeWindowWrites]
    rw [hW, hF, Nat.sub_zero, List.range_succ, List.range_eq_range']
  refine ⟨by rw [hy]; exact hwr, ?_, by rw [hy]; exact sanitize_eq_flatten w,
    escapeTokens_isToken w, by rw [hy]; exact sanitize_trailing_even w⟩
  intro k hk
  rw [hwr, List.mem_range] at hk
  omega

/-- C11 at the window of 200 quote bytes, whose output fills all 400 bytes before the
terminator slot. -/
theorem C11_no_overflow_witness :
    (escapeWindow (List.replicate 200 34 ++ [0]) (List.replicate 200 34).length
      (List.replicate 401 0)).length = 400 ∧
    (∀ k ∈ escapeWindowWrites (List.replicate 200 34 ++ [0]) (List.replicate 200 34).length
      (List.replicate 401 0), k ≤ 400 ∧ k < (List.replicate 401 0).length) ∧
    trailingBackslashes (escapeWindow (List.replicate 200 34 ++ [0])
      (List.replicate 200 34).length (List.replicate 401 0)) % 2 = 0 := by
  have h := C11_no_overflow_no_split (List.replicate 200 34) [0] (List.replicate 401 0)
    (by rw [List.length_replicate]) (List.length_replicate _ _)
  have hlen : (escapeWindow (List.replicate 200 34 ++ [0]) (List.replicate 200 34).length
      (List.replicate 401 0)).length = 400 := by
    rw [escapeWindow_eq _ _ _ (List.length_replicate _ _) (by rw [List.length_replicate])
      (by rw [List.length_append, List.length_replicate]; decide), List.take_left' rfl,
      sanitize_length, List.countP_replicate, List.countP_replicate]
    decide
  exact ⟨hlen, h.2.1, h.2.2.2.2⟩

/-- C12: for every buffer of 1024 bytes holding a zero byte at an index of at most 1023 and
all `size_t` values of the pending count and of `uart_total_received`, the formatted body is
shorter than the 1024-byte response buffer, `snprintf` does not cut it, and it is exactly
`{"data":"<escaped>","length":L,"buffered":B,"total_received":T}`: it begins with `{`, ends
with `}`, and `<escaped>` has no quote outside an escape pair and no lone backslash. -/
theorem C12_body_well_formed (s : Shared) (buffered : Nat) (safe_data escaped_data : List Nat)
    (hbuf : s.uart_buffer.length = BUF_SIZE)
    (hz : ∃ k, k ≤ 1023 ∧ s.uart_buffer[k]? = some 0)
    (ht : s.uart_total_received < SIZE_T_MOD) (hb : buffered < SIZE_T_MOD)
    (hs : safe_data.length = 201) (he : escaped_data.length = 401) :
    (dataFormat (apiDataFields s buffered safe_data escaped_data)).length < 1024 ∧
    api_data_get_handler s buffered safe_data escaped_data =
      lit "\x7b\"data\":\"" ++ sanitize ((cstr s.uart_buffer).take 200) ++
        lit "\",\"length\":" ++ fmtDec (strlen s.uart_buffer) ++ lit ",\"buffered\":" ++
        fmtDec buffered ++ lit ",\"total_received\":" ++ fmtDec s.uart_total_received ++
        lit "\x7d" ∧
    strlen s.uart_buffer ≤ 1023 ∧
    (api_data_get_handler s buffered safe_data escaped_data).head? = some 123 ∧
    (api_data_get_handler s buffered safe_data escaped_data).getLast? = some 125 ∧
    noUnescapedQuote (sanitize ((cstr s.uart_buffer).take 200)) = true := by
  obtain ⟨k, hk, hzero⟩ := hz
  have hstr : strlen s.uart_buffer ≤ 1023 := le_trans (strlen_le_of_zero _ k hzero) hk
  have hdata := apiDataFields_data s buffered safe_data escaped_data hs he
  have hbody : api_data_get_handler s buffered safe_data escaped_data =
      lit "\x7b\"data\":\"" ++ sanitize ((cstr s.uart_buffer).take 200) ++
        lit "\",\"length\":" ++ fmtDec (strlen s.uart_buffer) ++ lit ",\"buffered\":" ++
        fmtDec buffered ++ lit ",\"total_received\":" ++ fmtDec s.uart_total_received ++
        lit "\x7d" := by
    rw [api_data_get_handler_eq s buffered safe_data escaped_data hbuf ht hb hs he]
    simp only [dataFormat, hdata]
    simp only [apiDataFields]
  have hlen : (dataFormat (apiDataFields s buffered safe_data escaped_data)).length ≤ 481 := by
    apply dataFormat_length_le
    · rw [hdata]
      have h1 := sanitize_length_le ((cstr s.uart_buffer).take 200)
      have h2 : ((cstr s.uart_buffer).take 200).length ≤ 200 := by
        rw [List.length_take]; exact Nat.min_le_left _ _
      omega
    · simp only [apiDataFields]
      exact lt_of_le_of_lt hstr (by decide)
    · exact hb
    · exact ht
  have hopen : lit "\x7b\"data\":\"" = 123 :: lit "\"data\":\"" := by decide
  have hclose : lit "\x7d" = [125] := by decide
  refine ⟨by omega, hbody, hstr, ?_, ?_, noUnescapedQuote_sanitize _⟩
  · rw [hbody, hopen]
    simp only [List.append_assoc, List.cons_append, List.head?_cons]
  · rw [hbody, hclose, List.getLast?_append]
    rfl

/-- C12 at the initial state after one read of the two bytes quote, backslash. -/
theorem C12_body_witness :
    api_data_get_handler (uart_read_cycle initShared initLocals
      ⟨2, UartRead.bytes [34, 92]⟩).1 7 (List.replicate 201 0) (List.replicate 401 0) =
      lit "\x7b\"data\":\"\\\"\\\\\",\"length\":2,\"buffered\":7,\"total_received\":2\x7d" := by
  have hinv := uart_read_task_inv initShared initLocals [⟨2, UartRead.bytes [34, 92]⟩]
    initShared_inv.1 initShared_inv.2
  have hc := cstr_after_read initShared initLocals 2 [34, 92] initShared_inv.1
    (by decide) (by decide)
  have htot := (uart_read_cycle_total initShared initLocals ⟨2, UartRead.bytes [34, 92]⟩)
  have h := C12_body_well_formed (uart_read_cycle initShared initLocals
      ⟨2, UartRead.bytes [34, 92]⟩).1 7 (List.replicate 201 0) (List.replicate 401 0)
    hinv.1 hinv.2
    (by rw [htot]; decide) (by decide) (List.length_replicate _ _) (List.length_replicate _ _)
  rw [h.2.1]
  simp only [strlen, hc, htot]
  decide

/-- C13: for every earlier content of `uart_buffer` and every read of n bytes, 1 <= n <= 1023,
the chunk visible afterwards (the buffer bytes before the first zero byte) is the read bytes
up to their first zero byte, a prefix of the bytes just read; the `data` and `length` served
are therefore the same for any two earlier buffer contents. -/
theorem C13_replace_never_merge (s1 s2 : Shared) (l1 l2 : ReaderLocals)
    (p1 p2 b1 b2 : Nat) (data safe1 safe2 esc1 esc2 : List Nat)
    (h1 : s1.uart_buffer.length = BUF_SIZE) (h2 : s2.uart_buffer.length = BUF_SIZE)
    (hn : 1 ≤ data.length) (hm : data.length ≤ 1023)
    (hs1 : safe1.length = 201) (hs2 : safe2.length = 201)
    (he1 : esc1.length = 401) (he2 : esc2.length = 401) :
    cstr (uart_read_cycle s1 l1 ⟨p1, UartRead.bytes data⟩).1.uart_buffer = cstr data ∧
    cstr (uart_read_cycle s1 l1 ⟨p1, UartRead.bytes data⟩).1.uart_buffer <+: data ∧
    (apiDataFields (uart_read_cycle s1 l1 ⟨p1, UartRead.bytes data⟩).1 b1 safe1 esc1).data =
      sanitize ((cstr data).take 200) ∧
    (apiDataFields (uart_read_cycle s1 l1 ⟨p1, UartRead.bytes data⟩).1 b1 safe1 esc1).length =
      strlen data ∧
    (apiDataFields (uart_read_cycle s1 l1 ⟨p1, UartRead.bytes data⟩).1 b1 safe1 esc1).data =
      (apiDataFields (uart_read_cycle s2 l2 ⟨p2, UartRead.bytes data⟩).1 b2 safe2 esc2).data ∧
    (apiDataFields (uart_read_cycle s1 l1 ⟨p1, UartRead.bytes data⟩).1 b1 safe1 esc1).length =
      (apiDataFields (uart_read_cycle s2 l2 ⟨p2, UartRead.bytes data⟩).1 b2 safe2 esc2).length
    := by
  have c1 := cstr_after_read s1 l1 p1 data h1 hn hm
  have c2 := cstr_after_read s2 l2 p2 data h2 hn hm
  have d1 := apiDataFields_data (uart_read_cycle s1 l1 ⟨p1, UartRead.bytes data⟩).1 b1 safe1
    esc1 hs1 he1
  have d2 := apiDataFields_data (uart_read_cycle s2 l2 ⟨p2, UartRead.bytes data⟩).1 b2 safe2
    esc2 hs2 he2
  rw [c1] at d1
  rw [c2] at d2
  have n1 : (apiDataFields (uart_read_cycle s1 l1 ⟨p1, UartRead.bytes data⟩).1 b1 safe1
      esc1).length = strlen data := by
    simp only [apiDataFields, strlen, c1]
  have n2 : (apiDataFields (uart_read_cycle s2 l2 ⟨p2, UartRead.bytes data⟩).1 b2 safe2
      esc2).length = strlen data := by
    simp only [apiDataFields, strlen, c2]
  refine ⟨c1, ?_, d1, n1, d1.trans d2.symm, n1.trans n2.symm⟩
  rw [c1]
  exact List.takeWhile_prefix _

/-- C13 at a buffer that held `Hello` and at the initial buffer, both overwritten by `Hi`:
the chunk served is `Hi` with length 2 in both cases. -/
theorem C13_replace_witness :
    cstr (uart_read_cycle ⟨[72, 101, 108, 108, 111] ++ List.replicate 1019 0, 5⟩ initLocals
      ⟨2, UartRead.bytes [72, 105]⟩).1.uart_buffer = [72, 105] ∧
    (apiDataFields (uart_read_cycle ⟨[72, 101, 108, 108, 111] ++ List.replicate 1019 0, 5⟩
      initLocals ⟨2, UartRead.bytes [72, 105]⟩).1 0 (List.replicate 201 0)
      (List.replicate 401 0)).length =
    (apiDataFields (uart_read_cycle initShared initLocals ⟨2, UartRead.bytes [72, 105]⟩).1 0
      (List.replicate 201 0) (List.replicate 401 0)).length := by
  have h := C13_replace_never_merge ⟨[72, 101, 108, 108, 111] ++ List.replicate 1019 0, 5⟩
    initShared initLocals initLocals 2 2 0 0 [72, 105] (List.replicate 201 0)
    (List.replicate 201 0) (List.replicate 401 0) (List.replicate 401 0)
    (by simp only [List.length_append, List.length_cons, List.length_nil,
      List.length_replicate]; decide)
    (List.length_replicate _ _) (by decide) (by decide)
    (List.length_replicate _ _) (List.length_replicate _ _)
    (List.length_replicate _ _) (List.length_replicate _ _)
  exact ⟨h.1.trans (by decide), h.2.2.2.2.2⟩

end ComToAir
